import Mathlib

/-!
Verification development for the `miga` business-directory scraper.

The Python sources under `src/` are shallowly embedded here.  Strings are
modelled as `List Char` (named `Str`) so that every definition reduces inside
the Lean kernel; the external collaborators (the Zyte fetch client and the
BeautifulSoup markup-query layer) are modelled as explicit parameters and a
small element-tree type that supports the `find` / `find_all` queries the
scrapers use.  All regular expressions appearing in the sources are literal
or near-literal patterns; each is translated into an explicit scanning
function with Python `re.search` semantics.
-/

set_option maxRecDepth 4000

namespace Miga

abbrev Str := List Char

/-- Lower-case a character-list string (model of Python `str.lower`). -/
def lowerS (s : Str) : Str := s.map Char.toLower

/-- `needle` occurs as a contiguous substring of `hay`. -/
def isSubL (needle hay : Str) : Bool :=
  match hay with
  | [] => needle.isEmpty
  | c :: cs => needle.isPrefixOf (c :: cs) || isSubL needle cs

/-- Case-insensitive substring test, the model of `re.search` for a literal
pattern compiled with `re.I`, and of Python `"x" in s.lower()`. -/
def containsCI (hay needle : Str) : Bool :=
  isSubL (lowerS needle) (lowerS hay)

/-- Case-sensitive substring test (Python `"x" in s`). -/
def containsCS (hay needle : Str) : Bool := isSubL needle hay

/-- Python `str.strip()`: drop leading and trailing whitespace. -/
def stripS (s : Str) : Str :=
  ((s.dropWhile Char.isWhitespace).reverse.dropWhile Char.isWhitespace).reverse

/-- Python `str.split(sep)` for a one-character separator: split at every
occurrence, keeping empty pieces. -/
def splitOnC (sep : Char) : Str → List Str
  | [] => [[]]
  | c :: cs =>
      match splitOnC sep cs with
      | [] => if c == sep then [[], []] else [[c]]
      | g :: gs => if c == sep then [] :: g :: gs else (c :: g) :: gs

/-- Helper for `splitWS`: `cur` is the reversed token being accumulated. -/
def splitWSAux (cur : Str) : Str → List Str
  | [] => if cur.isEmpty then [] else [cur.reverse]
  | c :: cs =>
      if c.isWhitespace then
        if cur.isEmpty then splitWSAux [] cs else cur.reverse :: splitWSAux [] cs
      else
        splitWSAux (c :: cur) cs

/-- Python `str.split()` with no argument (used by the markup layer for the
multi-valued `class` attribute): split on whitespace runs, dropping empties. -/
def splitWS (s : Str) : List Str := splitWSAux [] s

/-- Join a list of strings with a separator (Python `sep.join(xs)`). -/
def joinSep (sep : Str) : List Str → Str
  | [] => []
  | [x] => x
  | x :: y :: rest => x ++ sep ++ joinSep sep (y :: rest)

/-- Concatenate with no separator (Python `"".join(xs)`). -/
def joinAll (xs : List Str) : Str := xs.foldr (· ++ ·) []

/-- Python `str(n)` for a natural number. -/
def natToStr (n : Nat) : Str := Nat.toDigits 10 n

/-- Numeric value of a digit string (assumes decimal digits). -/
def digitsToNat (s : Str) : Nat :=
  s.foldl (fun acc c => 10 * acc + (c.toNat - '0'.toNat)) 0

/-- An exact decimal `num / 10 ^ scale`: the value of `float(tok)` for the
non-negative decimal tokens the rating regexes capture (within the ranges
occurring here, such floats are exact and are zero iff `num = 0`). -/
structure DecV where
  num : Nat
  scale : Nat
  deriving DecidableEq, Repr

/-- Python `float(tok)` for a token of shape `digits` or `digits.digits?`
(the only shapes produced by the rating regexes), as an exact decimal. -/
def decTokenToDec (tok : Str) : DecV :=
  let intPart := tok.takeWhile Char.isDigit
  let rest := tok.dropWhile Char.isDigit
  let fracPart :=
    match rest with
    | [] => ([] : Str)
    | _ :: r => r.takeWhile Char.isDigit
  ⟨digitsToNat (intPart ++ fracPart), fracPart.length⟩

/-- Python `href.split('?')[0]`: the prefix before the first `?`. -/
def beforeQuery (s : Str) : Str := s.takeWhile (fun c => c != '?')

/-- Word character for the `\b` boundary of the ZIP regex (`[A-Za-z0-9_]`). -/
def isWordChar (c : Char) : Bool := c.isAlphanum || c == '_'

/-- Helper for `collapseWS`: `prevWS` records whether the previous character
was part of a whitespace run already replaced by a single space. -/
def collapseWSAux (prevWS : Bool) : Str → Str
  | [] => []
  | c :: cs =>
      if c.isWhitespace then
        (if prevWS then [] else [' ']) ++ collapseWSAux true cs
      else
        c :: collapseWSAux false cs

/-- Python `re.sub(r'\s+', ' ', s)`: collapse every whitespace run to one space. -/
def collapseWS (s : Str) : Str := collapseWSAux false s

/-- Case-insensitive "begins with" (model of a `re.I` literal anchored here). -/
def startsWithCI (s pat : Str) : Bool := (lowerS pat).isPrefixOf (lowerS s)

/-- Generic leftmost-match scanner: try the matcher at every suffix
(`re.search` position semantics, leftmost match wins). -/
def scanFirst (f : Str → Option Str) : Str → Option Str
  | [] => f []
  | c :: cs =>
      match f (c :: cs) with
      | some r => some r
      | none => scanFirst f cs

/-- Matcher at one position for `(\d+\.?\d*)\s*(?:kw1|kw2|...)` with `re.I`:
a digit run, an optional dot, a further digit run, optional whitespace, then
one of the keywords.  Greedy matching needs no backtracking here because a
digit given back can start neither `\s*` progress nor a keyword. -/
def numKeywordMatchAt (kws : List Str) (t : Str) : Option Str :=
  let d1 := t.takeWhile Char.isDigit
  if d1.isEmpty then none else
  let r1 := t.dropWhile Char.isDigit
  let dotPart : Str × Str :=
    match r1 with
    | '.' :: r => (['.'], r)
    | _ => ([], r1)
  let d2 := dotPart.2.takeWhile Char.isDigit
  let r3 := (dotPart.2.dropWhile Char.isDigit).dropWhile Char.isWhitespace
  if kws.any (fun kw => startsWithCI r3 kw) then some (d1 ++ dotPart.1 ++ d2) else none

/-- Matcher at one position for `(\d+\.\d+)`. -/
def decimalMatchAt (t : Str) : Option Str :=
  let d1 := t.takeWhile Char.isDigit
  if d1.isEmpty then none else
  match t.dropWhile Char.isDigit with
  | '.' :: r =>
      let d2 := r.takeWhile Char.isDigit
      if d2.isEmpty then none else some (d1 ++ '.' :: d2)
  | _ => none

/-- `YellowPagesScraper._extract_rating_from_text`: search
`(\d+\.?\d*)\s*(?:star|rating)` (case-insensitive), falling back to
`(\d+\.\d+)`; parse the captured token as a float. -/
def extract_rating_from_text (text : Str) : Option DecV :=
  match scanFirst (numKeywordMatchAt ["star".toList, "rating".toList]) text with
  | some tok => some (decTokenToDec tok)
  | none =>
      match scanFirst decimalMatchAt text with
      | some tok => some (decTokenToDec tok)
      | none => none

/-- Matcher at one position for `(\d+)\s*review` with `re.I`. -/
def reviewMatchAt (t : Str) : Option Str :=
  let d := t.takeWhile Char.isDigit
  if d.isEmpty then none else
  let r := (t.dropWhile Char.isDigit).dropWhile Char.isWhitespace
  if startsWithCI r "review".toList then some d else none

/-- `YellowPagesScraper._extract_review_count`: search `(\d+)\s*review`
(case-insensitive) and parse the captured group as an int. -/
def extract_review_count (text : Str) : Option Nat :=
  (scanFirst reviewMatchAt text).map digitsToNat

/-- Matcher at one position for `\((\d+)\s*review` with `re.I`. -/
def yelpReviewMatchAt : Str → Option Str
  | '(' :: t => reviewMatchAt t
  | _ => none

/-- `YelpScraper._extract_review_count`: search `\((\d+)\s*review`
(case-insensitive) and parse the captured group as an int. -/
def yelp_extract_review_count (text : Str) : Option Nat :=
  (scanFirst yelpReviewMatchAt text).map digitsToNat

/-- `YelpScraper._extract_rating_from_aria_label` applied to the attribute
text: search `(\d+\.?\d*)\s*star` (case-insensitive), parse as float. -/
def yelp_rating_from_aria_text (text : Str) : Option DecV :=
  (scanFirst (numKeywordMatchAt ["star".toList]) text).map decTokenToDec

/-- Character class of the phone regex `[\d\s\-\(\)\.]+`. -/
def isPhoneChar (c : Char) : Bool :=
  c.isDigit || c.isWhitespace || c == '-' || c == '(' || c == ')' || c == '.'

/-- `re.search(r'[\d\s\-\(\)\.]+', s)`: the leftmost maximal run of phone
characters, if any. -/
def phoneSearch (s : Str) : Option Str :=
  match s.dropWhile (fun c => !isPhoneChar c) with
  | [] => none
  | c :: cs => some ((c :: cs).takeWhile isPhoneChar)

/-- `re.sub(r'\s+', ' ', run).strip()` as applied to a matched phone run. -/
def cleanPhone (run : Str) : Str := stripS (collapseWS run)

/-- `\b` after the candidate ZIP: end of string or a non-word character. -/
def boundaryAfter : Str → Bool
  | [] => true
  | c :: _ => !isWordChar c

/-- Matcher at one position for `(\d{5}(?:-\d{4})?)\b`; the `\b` before the
digits is enforced by the scanner.  The optional `-\d{4}` group is greedy and
backtracks to the bare five digits when the trailing boundary fails. -/
def zipMatchAt (t : Str) : Option Str :=
  match t with
  | a :: b :: c :: d :: e :: rest =>
      if [a, b, c, d, e].all Char.isDigit then
        match rest with
        | '-' :: f :: g :: h :: i :: rest2 =>
            if [f, g, h, i].all Char.isDigit then
              if boundaryAfter rest2 then some [a, b, c, d, e, '-', f, g, h, i]
              else some [a, b, c, d, e]
            else some [a, b, c, d, e]
        | _ => if boundaryAfter rest then some [a, b, c, d, e] else none
      else none
  | _ => none

/-- Scanner for the ZIP regex: tracks whether the previous character is a word
character (for the leading `\b`) and the byte index of the match start
(`zip_match.start()` is used by `_parse_address`). -/
def zipScan (prevIsWord : Bool) (idx : Nat) : Str → Option (Nat × Str)
  | [] => none
  | c :: cs =>
      match (if prevIsWord then none else zipMatchAt (c :: cs)) with
      | some r => some (idx, r)
      | none => zipScan (isWordChar c) (idx + 1) cs

/-- `re.search(r'\b(\d{5}(?:-\d{4})?)\b', s)` returning (start index, group). -/
def zipSearch (s : Str) : Option (Nat × Str) := zipScan false 0 s

/-- The keys of the `business_data` dict built by both listing parsers
(equivalently, the updatable columns of the `Business` model). -/
inductive Field where
  | name | source | sourceUrl | sourceId | phone | email | website
  | address | city | state | zipCode | country | latitude | longitude
  | category | description | rating | reviewCount | hours | amenities | images
  deriving DecidableEq, Repr

/-- A field value: string, float (exact rational) or int. -/
inductive Value where
  | s (v : Str)
  | r (v : DecV)
  | n (v : Nat)
  deriving DecidableEq, Repr

/-- A business record / stored row: the `business_data` dict (and the
mutable attribute set of a `Business` row), as a finite map with `None`s. -/
def Row := Field → Option Value

/-- Dict item assignment `row[f] = v` (also `setattr(row, f, v)`). -/
def Row.set (row : Row) (f : Field) (v : Value) : Row :=
  fun g => if g = f then some v else row g

/-- Assignment of a possibly-`None` value (used by `dict.update`). -/
def Row.setO (row : Row) (f : Field) (o : Option Value) : Row :=
  fun g => if g = f then o else row g

/-- Python truthiness of a dict entry: `None`, `""`, `0` and `0.0` are falsy. -/
def truthy : Option Value → Bool
  | none => false
  | some (.s v) => !v.isEmpty
  | some (.r q) => q.num != 0
  | some (.n k) => k != 0

mutual
/-- The element tree produced by the markup-query layer (BeautifulSoup).
`text` is the element's own string content; `children` are nested elements.
(The child list is a mutually inductive type so that every traversal is
structurally recursive and reduces inside the kernel.) -/
inductive Elem where
  | mk (tag : Str) (attrs : List (Str × Str)) (text : Str) (children : ElemList)
/-- A list of sibling elements. -/
inductive ElemList where
  | nil
  | cons (e : Elem) (es : ElemList)
end

/-- Build an `ElemList` from a plain list (fixture convenience). -/
def ElemList.ofList : List Elem → ElemList
  | [] => .nil
  | e :: es => .cons e (ElemList.ofList es)

/-- Fixture convenience constructor taking a plain child list. -/
def Elem.node (tag : Str) (attrs : List (Str × Str)) (text : Str)
    (children : List Elem) : Elem :=
  .mk tag attrs text (ElemList.ofList children)

def Elem.tag : Elem → Str
  | .mk t _ _ _ => t

def Elem.attrs : Elem → List (Str × Str)
  | .mk _ a _ _ => a

def Elem.text : Elem → Str
  | .mk _ _ x _ => x

def Elem.children : Elem → ElemList
  | .mk _ _ _ cs => cs

/-- `elem.get(key, default)`. -/
def Elem.getAttrD (e : Elem) (key dflt : Str) : Str :=
  match e.attrs.find? (fun p => p.1 == key) with
  | some p => p.2
  | none => dflt

mutual
/-- All string fragments of a subtree in document order (for `get_text`). -/
def elemTexts : Elem → List Str
  | .mk _ _ x cs => x :: listTexts cs
/-- String fragments of a forest in document order. -/
def listTexts : ElemList → List Str
  | .nil => []
  | .cons e es => elemTexts e ++ listTexts es
end

/-- `elem.get_text(strip=True)`: each string fragment stripped, concatenated. -/
def getTextStrip (e : Elem) : Str := joinAll ((elemTexts e).map stripS)

/-- An attribute pattern of a selector: an exact string, a literal
case-insensitive `re.compile(..., re.I)` alternation (searched as substring),
or the anchored `re.compile(r'^https?://', re.I)`. -/
inductive Pat where
  | exact (s : Str)
  | iany (alts : List Str)
  | httpUrl

/-- Pattern match against a plain attribute value (BS4 `_matches`). -/
def matchPat (p : Pat) (v : Str) : Bool :=
  match p with
  | .exact s => v == s
  | .iany alts => alts.any (fun a => containsCI v a)
  | .httpUrl => startsWithCI v "http://".toList || startsWithCI v "https://".toList

/-- A `find`/`find_all` selector: a tag name plus attribute filters. -/
structure Sel where
  tag : Str
  attrs : List (Str × Pat)

/-- One attribute filter against an element.  A missing attribute never
matches; the multi-valued `class` attribute matches if any
whitespace-separated token matches the pattern (BS4 semantics). -/
def matchAttr (e : Elem) (key : Str) (p : Pat) : Bool :=
  match e.attrs.find? (fun q => q.1 == key) with
  | none => false
  | some q =>
      if key == "class".toList then (splitWS q.2).any (fun tok => matchPat p tok)
      else matchPat p q.2

/-- Whether an element matches a selector. -/
def matchSel (sel : Sel) (e : Elem) : Bool :=
  e.tag == sel.tag && sel.attrs.all (fun kp => matchAttr e kp.1 kp.2)

mutual
/-- Descendant elements of an element (excluding itself), document order. -/
def elemDesc : Elem → List Elem
  | .mk _ _ _ cs => listDesc cs
/-- All elements of a forest including roots, document order (preorder). -/
def listDesc : ElemList → List Elem
  | .nil => []
  | .cons e es => e :: elemDesc e ++ listDesc es
end

/-- `elem.find_all(tag, attrs)`: all matching descendants in document order. -/
def findAll (e : Elem) (sel : Sel) : List Elem :=
  (elemDesc e).filter (matchSel sel)

/-- `elem.find(tag, attrs)`: the first matching descendant, if any. -/
def findFirst (e : Elem) (sel : Sel) : Option Elem :=
  (findAll e sel).head?

mutual
/-- Preorder search for the first matching descendant, also returning its
ancestor chain (nearest first) inside the searched root; this supports
`find_parent('a')`. -/
def findAncE (sel : Sel) (anc : List Elem) : Elem → Option (Elem × List Elem)
  | .mk t a x cs =>
      if matchSel sel (.mk t a x cs) then some (.mk t a x cs, anc)
      else findAncL sel (.mk t a x cs :: anc) cs
/-- Preorder search over a forest, threading the ancestor chain. -/
def findAncL (sel : Sel) (anc : List Elem) : ElemList → Option (Elem × List Elem)
  | .nil => none
  | .cons e es =>
      match findAncE sel anc e with
      | some r => some r
      | none => findAncL sel anc es
end

/-- `elem.find(tag, attrs)` on the descendants of `root`, with ancestors. -/
def findWithAnc (root : Elem) (sel : Sel) : Option (Elem × List Elem) :=
  findAncL sel [root] root.children

/-- Hex digit value, for percent-decoding. -/
def hexVal (c : Char) : Option Nat :=
  if c.isDigit then some (c.toNat - '0'.toNat)
  else if 'A' ≤ c && c ≤ 'F' then some (c.toNat - 'A'.toNat + 10)
  else if 'a' ≤ c && c ≤ 'f' then some (c.toNat - 'a'.toNat + 10)
  else none

/-- `urllib.parse.unquote_plus` restricted to single-byte escapes: `+`
becomes a space and `%XX` becomes the character with code `XX`; malformed
escapes are left untouched.  (Multi-byte UTF-8 escapes do not occur in the
URLs this repository builds.) -/
def unquotePlus : Str → Str
  | [] => []
  | '+' :: rest => ' ' :: unquotePlus rest
  | '%' :: a :: b :: rest =>
      match hexVal a, hexVal b with
      | some x, some y => Char.ofNat (16 * x + y) :: unquotePlus rest
      | _, _ => '%' :: unquotePlus (a :: b :: rest)
  | c :: rest => c :: unquotePlus rest

/-- Split at the first occurrence of `sep`, returning the pieces before and
after it, or `none` when `sep` does not occur. -/
def breakOnSub (sep : Str) : Str → Option (Str × Str)
  | [] => if sep.isEmpty then some ([], []) else none
  | c :: cs =>
      if sep.isPrefixOf (c :: cs) then some ([], (c :: cs).drop sep.length)
      else
        match breakOnSub sep cs with
        | some pq => some (c :: pq.1, pq.2)
        | none => none

/-- The components of `urllib.parse.urlparse` that the scrapers read
(scheme, netloc, path, query); fragments and params are not used by the
URLs this repository handles. -/
structure UrlParts where
  scheme : Str
  netloc : Str
  path : Str
  query : Str

/-- Model of `urlparse` for absolute `http(s)` URLs (and, degenerately, for
scheme-less strings, which become pure path+query). -/
def urlparseM (u : Str) : UrlParts :=
  match breakOnSub "://".toList u with
  | some sr =>
      let netloc := sr.2.takeWhile (fun c => c != '/' && c != '?' && c != '#')
      let rest2 := sr.2.drop netloc.length
      let path := rest2.takeWhile (fun c => c != '?' && c != '#')
      let rest3 := rest2.drop path.length
      let query :=
        match rest3 with
        | '?' :: q => q.takeWhile (fun c => c != '#')
        | _ => []
      ⟨sr.1, netloc, path, query⟩
  | none =>
      let path := u.takeWhile (fun c => c != '?' && c != '#')
      let rest3 := u.drop path.length
      let query :=
        match rest3 with
        | '?' :: q => q.takeWhile (fun c => c != '#')
        | _ => []
      ⟨[], [], path, query⟩

/-- The decoded `(name, value)` pairs of a query string per
`urllib.parse.parse_qsl` with default options: split on `&`, drop pieces
without a `=` or with an empty value, percent-plus-decode both sides. -/
def qsPairs (query : Str) : List (Str × Str) :=
  (splitOnC '&' query).filterMap (fun pair =>
    match breakOnSub "=".toList pair with
    | none => none
    | some nv => if nv.2.isEmpty then none else some (unquotePlus nv.1, unquotePlus nv.2))

/-- Append a value under a key, preserving first-occurrence key order
(Python dict insertion order as built by `parse_qs`). -/
def qsInsert (d : List (Str × List Str)) (k : Str) (v : Str) : List (Str × List Str) :=
  match d with
  | [] => [(k, [v])]
  | kv :: rest =>
      if kv.1 == k then (kv.1, kv.2 ++ [v]) :: rest else kv :: qsInsert rest k v

/-- `urllib.parse.parse_qs(query)` as an ordered association list. -/
def parse_qs (query : Str) : List (Str × List Str) :=
  (qsPairs query).foldl (fun d p => qsInsert d p.1 p.2) []

/-- Python dict assignment `d[k] = v`: overwrite in place, else append. -/
def dictSet (d : List (Str × List Str)) (k : Str) (v : List Str) : List (Str × List Str) :=
  match d with
  | [] => [(k, v)]
  | kv :: rest =>
      if kv.1 == k then (kv.1, v) :: rest else kv :: dictSet rest k v

/-- `'&'.join([f"{k}={v[0]}" for k, v in query_params.items()])`. -/
def joinQuery (d : List (Str × List Str)) : Str :=
  joinSep "&".toList (d.map (fun p => p.1 ++ '=' :: p.2.headD []))

/-- The pagination-URL computation inlined in both Yellow Pages crawl loops
(`urlparse`; `parse_qs`; `query_params['page'] = [str(page)]`; rebuild as
`f"{scheme}://{netloc}{path}?{new_query}"`). -/
def buildPageUrlYP (searchUrl : Str) (page : Nat) : Str :=
  let pu := urlparseM searchUrl
  let qp := dictSet (parse_qs pu.query) "page".toList [natToStr page]
  pu.scheme ++ "://".toList ++ pu.netloc ++ pu.path ++ '?' :: joinQuery qp

/-- The pagination-URL computation inlined in both Yelp crawl loops, which
sets `query_params['start'] = [str(start)]` instead. -/
def buildPageUrlYelp (searchUrl : Str) (start : Nat) : Str :=
  let pu := urlparseM searchUrl
  let qp := dictSet (parse_qs pu.query) "start".toList [natToStr start]
  pu.scheme ++ "://".toList ++ pu.netloc ++ pu.path ++ '?' :: joinQuery qp

/-- `urllib.parse.urljoin(base, ref)` for the bases used here (an origin
with empty path): protocol-relative refs take the base's scheme, rooted refs
are appended to the origin, and other relative refs resolve to `/ref`. -/
def urljoinBase (base ref : Str) : Str :=
  if ("//".toList).isPrefixOf ref then (urlparseM base).scheme ++ ':' :: ref
  else if ref.take 1 == ['/'] then base ++ ref
  else base ++ '/' :: ref

/-- `json.dumps` of a list of strings containing no characters that need
JSON escaping (the only shape serialized by the listing parsers). -/
def jsonStrList (xs : List Str) : Str :=
  '[' :: (joinSep ", ".toList (xs.map (fun x => '"' :: x ++ ['"'])) ++ [']'])

/-- `https://www.yellowpages.com`. -/
def ypBase : Str := "https://www.yellowpages.com".toList

/-- `https://www.yelp.ca`. -/
def yelpBase : Str := "https://www.yelp.ca".toList

/-- The dict returned by `YellowPagesScraper._parse_address`. -/
structure AddrParts where
  address : Option Str
  city : Option Str
  state : Option Str
  zip_code : Option Str
  deriving DecidableEq, Repr

/-- `YellowPagesScraper._parse_address`: split on commas, strip each part;
part 0 is the address, part 1 the city; in part 2 a `\b\d{5}(-\d{4})?\b`
search yields the ZIP and everything before the match (stripped) the state,
else the whole part is the state. -/
def parse_address (t : Str) : AddrParts :=
  if t.isEmpty then ⟨none, none, none, none⟩
  else
    let parts := (splitOnC ',' t).map stripS
    match parts[2]? with
    | none => ⟨parts[0]?, parts[1]?, none, none⟩
    | some p2 =>
        let state_zip := stripS p2
        match zipSearch state_zip with
        | some im =>
            ⟨parts[0]?, parts[1]?, some (stripS (state_zip.take im.1)), some im.2⟩
        | none => ⟨parts[0]?, parts[1]?, some state_zip, none⟩

/-- Last index `l ≥ 1` inside a path segment at which `.html` starts
(the greedy `[^/]+` backtracks from the right). -/
def htmlSuffixIdx (idx : Nat) : Str → Option Nat
  | [] => none
  | c :: cs =>
      match htmlSuffixIdx (idx + 1) cs with
      | some j => some j
      | none =>
          if idx ≥ 1 && (".html".toList).isPrefixOf (c :: cs) then some idx else none

/-- `re.search(r'/([^/]+)\.html', url)`: the captured group at the leftmost
`/` whose following slash-free run contains a feasible `.html` suffix. -/
def ypSourceId : Str → Option Str
  | [] => none
  | '/' :: rest =>
      let seg := rest.takeWhile (fun c => c != '/')
      (match htmlSuffixIdx 0 seg with
       | some l => some (seg.take l)
       | none => ypSourceId rest)
  | _ :: rest => ypSourceId rest

/-- `re.search(r'/biz/([^/?]+)', url)`: the run after the first `/biz/` that
is followed by at least one character other than `/` and `?`. -/
def yelpSourceId : Str → Option Str
  | [] => none
  | c :: rest =>
      if ("/biz/".toList).isPrefixOf (c :: rest) then
        let seg := ((c :: rest).drop 5).takeWhile (fun d => d != '/' && d != '?')
        if seg.isEmpty then yelpSourceId rest else some seg
      else yelpSourceId rest

/-- The `name_selectors` table of `YellowPagesScraper._parse_business_from_listing`. -/
def ypNameSelectors : List Sel :=
  [ ⟨"a".toList, [("class".toList, .iany ["business-name".toList])]⟩,
    ⟨"h2".toList, []⟩,
    ⟨"h3".toList, []⟩,
    ⟨"a".toList, [("class".toList, .iany ["listing".toList])]⟩,
    ⟨"span".toList, [("class".toList, .iany ["business-name".toList])]⟩ ]

/-- The `phone_selectors` table. -/
def ypPhoneSelectors : List Sel :=
  [ ⟨"div".toList, [("class".toList, .iany ["phone".toList])]⟩,
    ⟨"span".toList, [("class".toList, .iany ["phone".toList])]⟩,
    ⟨"a".toList, [("href".toList, .iany ["tel:".toList])]⟩,
    ⟨"div".toList, [("itemprop".toList, .exact "telephone".toList)]⟩ ]

/-- The `address_selectors` table. -/
def ypAddressSelectors : List Sel :=
  [ ⟨"div".toList, [("class".toList, .iany ["address".toList])]⟩,
    ⟨"span".toList, [("class".toList, .iany ["address".toList])]⟩,
    ⟨"div".toList, [("itemprop".toList, .exact "address".toList)]⟩,
    ⟨"div".toList, [("class".toList, .iany ["location".toList])]⟩ ]

/-- The `rating_selectors` table. -/
def ypRatingSelectors : List Sel :=
  [ ⟨"div".toList, [("class".toList, .iany ["rating".toList])]⟩,
    ⟨"span".toList, [("class".toList, .iany ["rating".toList])]⟩,
    ⟨"div".toList, [("itemprop".toList, .exact "ratingValue".toList)]⟩ ]

/-- The `review_selectors` table. -/
def ypReviewSelectors : List Sel :=
  [ ⟨"span".toList, [("class".toList, .iany ["review".toList])]⟩,
    ⟨"div".toList, [("class".toList, .iany ["review".toList])]⟩ ]

/-- The `category_selectors` table. -/
def ypCategorySelectors : List Sel :=
  [ ⟨"div".toList, [("class".toList, .iany ["category".toList])]⟩,
    ⟨"span".toList, [("class".toList, .iany ["category".toList])]⟩,
    ⟨"a".toList, [("class".toList, .iany ["category".toList])]⟩ ]

/-- Cascading `find`: the loop `for tag, attrs in selectors: x = find(...);
if x: break` over a selector table, returning element and ancestors. -/
def findFirstSel (root : Elem) : List Sel → Option (Elem × List Elem)
  | [] => none
  | sel :: rest =>
      match findWithAnc root sel with
      | some r => some r
      | none => findFirstSel root rest

/-- The phone loop: a matched element whose text yields no phone run does
not stop the cascade (the `break` sits inside `if phone_match`). -/
def phoneLoop (root : Elem) : List Sel → Option Str
  | [] => none
  | sel :: rest =>
      match findFirst root sel with
      | none => phoneLoop root rest
      | some el =>
          match phoneSearch (getTextStrip el) with
          | some run => some (cleanPhone run)
          | none => phoneLoop root rest

/-- The address loop: first matched element with non-empty text wins; a
matched element with empty text does not stop the cascade. -/
def addressLoop (root : Elem) : List Sel → Option Str
  | [] => none
  | sel :: rest =>
      match findFirst root sel with
      | none => addressLoop root rest
      | some el =>
          let t := getTextStrip el
          if t.isEmpty then addressLoop root rest else some t

/-- Truthiness of a Python float-or-None. -/
def ratTruthy : Option DecV → Bool
  | none => false
  | some q => q.num != 0

/-- Truthiness of a Python int-or-None. -/
def natTruthy : Option Nat → Bool
  | none => false
  | some k => k != 0

/-- The rating loop: every matched rule assigns its normalized value; the
cascade stops only when the assigned value is truthy, so the final value is
that of the last consulted matched rule. -/
def ratingLoop (root : Elem) (cur : Option DecV) : List Sel → Option DecV
  | [] => cur
  | sel :: rest =>
      match findFirst root sel with
      | none => ratingLoop root cur rest
      | some el =>
          let v := extract_rating_from_text (getTextStrip el)
          if ratTruthy v then v else ratingLoop root v rest

/-- The review-count loop, same shape as the rating loop. -/
def reviewLoop (root : Elem) (cur : Option Nat) : List Sel → Option Nat
  | [] => cur
  | sel :: rest =>
      match findFirst root sel with
      | none => reviewLoop root cur rest
      | some el =>
          let v := extract_review_count (getTextStrip el)
          if natTruthy v then v else reviewLoop root v rest

/-- The category collection: for one selector's `find_all` result, append
each non-empty text not already collected (order-preserving dedup). -/
def addCats (cats : List Str) (elems : List Elem) : List Str :=
  elems.foldl
    (fun acc el =>
      let t := getTextStrip el
      if !t.isEmpty && !acc.contains t then acc ++ [t] else acc)
    cats

/-- All categories collected across the three category selectors. -/
def ypCategories (root : Elem) : List Str :=
  ypCategorySelectors.foldl (fun acc sel => addCats acc (findAll root sel)) []

/-- The freshly initialized `business_data` dict of the Yellow Pages parser. -/
def ypInitRow : Row := fun f =>
  match f with
  | .source => some (.s "yellowpages".toList)
  | .country => some (.s "USA".toList)
  | _ => none

/-- Name/URL section of the Yellow Pages listing parser: cascading find of
the name element, text as name, `href` from the element or its nearest
anchor ancestor, query-stripped and base-resolved as `source_url`, and
`source_id` parsed out of the URL. -/
def ypNameUrl (root : Elem) (row : Row) : Row :=
  match findFirstSel root ypNameSelectors with
  | none => row
  | some ea =>
      let row := row.set .name (.s (getTextStrip ea.1))
      let href :=
        if ea.1.tag == "a".toList then ea.1.getAttrD "href".toList []
        else
          match ea.2.find? (fun p => p.tag == "a".toList) with
          | some p => p.getAttrD "href".toList []
          | none => []
      if href.isEmpty then row
      else
        let u :=
          if href.take 1 == ['/'] then urljoinBase ypBase (beforeQuery href)
          else if ("http".toList).isPrefixOf href then beforeQuery href
          else urljoinBase ypBase (beforeQuery href)
        let row := row.set .sourceUrl (.s u)
        match ypSourceId u with
        | some sid => row.set .sourceId (.s sid)
        | none => row

/-- Website section: first anchor with an absolute `http(s)` href; Yellow
Pages internal links are excluded and do not fall through to other anchors. -/
def ypWebsite (root : Elem) : Option Str :=
  match findFirst root ⟨"a".toList, [("href".toList, .httpUrl)]⟩ with
  | none => none
  | some el =>
      let href := el.getAttrD "href".toList []
      if containsCS (lowerS href) "yellowpages.com".toList then none else some href

/-- Image section: first `img`, `src` falling back to `data-src`,
protocol-relative and rooted URLs resolved. -/
def ypImage (root : Elem) : Option Str :=
  match findFirst root ⟨"img".toList, []⟩ with
  | none => none
  | some img =>
      let src := img.getAttrD "src".toList []
      let u := if src.isEmpty then img.getAttrD "data-src".toList [] else src
      if u.isEmpty then none
      else if ("//".toList).isPrefixOf u then some ("https:".toList ++ u)
      else if u.take 1 == ['/'] then some (urljoinBase ypBase u)
      else some u

/-- The final guard of both listing parsers:
`return business_data if business_data['name'] and business_data['source_url'] else None`. -/
def validityGate (row : Row) : Option Row :=
  if truthy (row Field.name) && truthy (row Field.sourceUrl) then some row else none

/-- `YellowPagesScraper._parse_business_from_listing`: the full per-listing
extraction, returning the record only when both `name` and `source_url` are
truthy (the final validity gate). -/
def yp_parse_business_from_listing (listing : Elem) : Option Row :=
  let row := ypNameUrl listing ypInitRow
  let row :=
    match phoneLoop listing ypPhoneSelectors with
    | some ph => row.set .phone (.s ph)
    | none => row
  let row :=
    match addressLoop listing ypAddressSelectors with
    | some t =>
        let ap := parse_address t
        (((row.setO .address (ap.address.map .s)).setO .city (ap.city.map .s)).setO
            .state (ap.state.map .s)).setO .zipCode (ap.zip_code.map .s)
    | none => row
  let row :=
    match ypWebsite listing with
    | some w => row.set .website (.s w)
    | none => row
  let row := row.setO .rating ((ratingLoop listing none ypRatingSelectors).map .r)
  let row := row.setO .reviewCount ((reviewLoop listing none ypReviewSelectors).map .n)
  let row :=
    match ypCategories listing with
    | [] => row
    | cats => row.set .category (.s (joinSep ", ".toList (cats.take 5)))
  let row :=
    match findFirst listing
        ⟨"div".toList,
          [("class".toList, .iany ["description".toList, "snippet".toList])]⟩ with
    | some el => row.set .description (.s (getTextStrip el))
    | none => row
  let row :=
    match ypImage listing with
    | some u => row.set .images (.s (jsonStrList [u]))
    | none => row
  validityGate row

/-- `re.search(r'Serving\s+([^,]+)', s)` (case-sensitive): after a literal
`Serving` and at least one whitespace character, capture up to the next
comma; when only whitespace follows, `\s+` backtracks and the group captures
the final whitespace character. -/
def servingSearch : Str → Option Str
  | [] => none
  | c :: rest =>
      if ("Serving".toList).isPrefixOf (c :: rest) then
        let t := (c :: rest).drop 7
        let w := t.takeWhile Char.isWhitespace
        if w.isEmpty then servingSearch rest
        else
          let u := (t.drop w.length).takeWhile (fun d => d != ',')
          if !u.isEmpty then some u
          else if w.length ≥ 2 then some (w.drop (w.length - 1))
          else servingSearch rest
      else servingSearch rest

/-- The freshly initialized `business_data` dict of the Yelp parser. -/
def yelpInitRow : Row := fun f =>
  match f with
  | .source => some (.s "yelp".toList)
  | .country => some (.s "Canada".toList)
  | _ => none

/-- Name/URL section of the Yelp listing parser (fixed class selectors). -/
def yelpNameUrl (root : Elem) (row : Row) : Row :=
  match findFirst root ⟨"h3".toList, [("class".toList, .exact "y-css-hcgwj4".toList)]⟩ with
  | none => row
  | some nameLink =>
      match findFirst nameLink
          ⟨"a".toList, [("class".toList, .exact "y-css-12f4fi2".toList)]⟩ with
      | none => row
      | some link =>
          let row := row.set .name (.s (getTextStrip link))
          let href := link.getAttrD "href".toList []
          if href.isEmpty then row
          else
            let u :=
              if href.take 1 == ['/'] then urljoinBase yelpBase (beforeQuery href)
              else beforeQuery href
            let row := row.set .sourceUrl (.s u)
            match yelpSourceId u with
            | some sid => row.set .sourceId (.s sid)
            | none => row

/-- City/address block under `secondaryAttributes`: the three successive
conditional assignments of the Yelp parser. -/
def yelpSecondary (root : Elem) (row : Row) : Row :=
  match findFirst root
      ⟨"div".toList, [("class".toList, .exact "secondaryAttributes__09f24__F0z3u".toList)]⟩ with
  | none => row
  | some sec =>
      match findFirst sec
          ⟨"div".toList, [("class".toList, .exact "container__09f24__Ommk4".toList)]⟩ with
      | none => row
      | some container =>
          let row :=
            match findFirst container
                ⟨"p".toList, [("class".toList, .exact "y-css-194gzdn".toList)]⟩ with
            | none => row
            | some cityP =>
                let cityText := getTextStrip cityP
                if containsCS cityText "Serving".toList then
                  match servingSearch cityText with
                  | some g => row.set .city (.s (stripS g))
                  | none => row
                else row.set .city (.s cityText)
          let row :=
            match findFirst container ⟨"address".toList, []⟩ with
            | none => row
            | some addrTag =>
                match findFirst addrTag
                    ⟨"p".toList, [("class".toList, .exact "y-css-194gzdn".toList)]⟩ with
                | none => row
                | some addrP =>
                    match findFirst addrP
                        ⟨"span".toList, [("class".toList, .exact "raw__09f24__T4Ezm".toList)]⟩ with
                    | none => row
                    | some addrSpan => row.set .address (.s (getTextStrip addrSpan))
          match findFirst container
              ⟨"div".toList, [("class".toList, .exact "y-css-74ugvt".toList)]⟩ with
          | none => row
          | some cityDiv =>
              match findFirst cityDiv
                  ⟨"p".toList, [("class".toList, .exact "y-css-194gzdn".toList)]⟩ with
              | none => row
              | some cityP2 => row.set .city (.s (getTextStrip cityP2))

/-- The amenity/tag texts collected by the Yelp parser (no dedup, no cap). -/
def yelpTags (root : Elem) : List Str :=
  (findAll root
      ⟨"div".toList,
        [("class".toList, .exact "tag__09f24__wuJ8a".toList),
         ("data-testid".toList, .exact "tag".toList)]⟩).filterMap
    (fun tagElem =>
      match findFirst tagElem
          ⟨"span".toList, [("class".toList, .exact "tagText__09f24__OoFU9".toList)]⟩ with
      | none => none
      | some tte =>
          match findFirst tte
              ⟨"span".toList, [("class".toList, .exact "raw__09f24__T4Ezm".toList)]⟩ with
          | none => none
          | some ts => some (getTextStrip ts))

/-- The category button texts of the Yelp parser (no dedup, no cap). -/
def yelpCategoryList (root : Elem) : Option (List Str) :=
  match findFirst root
      ⟨"div".toList, [("data-testid".toList, .exact "serp-ia-categories".toList)]⟩ with
  | none => none
  | some catsDiv =>
      some ((findAll catsDiv
          ⟨"button".toList, [("class".toList, .exact "y-css-4nc3wq".toList)]⟩).map
        getTextStrip)

/-- `YelpScraper._parse_business_from_listing`: the full per-listing
extraction with the same final validity gate as the Yellow Pages parser. -/
def yelp_parse_business_from_listing (listing : Elem) : Option Row :=
  let row := yelpNameUrl listing yelpInitRow
  let row :=
    match findFirst listing
        ⟨"div".toList,
          [("class".toList, .exact "y-css-dnttlc".toList),
           ("role".toList, .exact "img".toList)]⟩ with
    | none => row
    | some ratingElem =>
        row.setO .rating
          ((yelp_rating_from_aria_text (ratingElem.getAttrD "aria-label".toList [])).map .r)
  let row :=
    match findFirst listing
        ⟨"div".toList,
          [("data-traffic-crawl-id".toList, .exact "SearchResultBizRating".toList)]⟩ with
    | none => row
    | some rt => row.setO .reviewCount ((yelp_extract_review_count (getTextStrip rt)).map .n)
  let row :=
    match yelpCategoryList listing with
    | none => row
    | some cats =>
        if cats.isEmpty then row
        else row.set .category (.s (joinSep ", ".toList cats))
  let row :=
    match findFirst listing ⟨"address".toList, []⟩ with
    | none => row
    | some addrElem =>
        match findFirst addrElem
            ⟨"p".toList, [("class".toList, .exact "y-css-194gzdn".toList)]⟩ with
        | none => row
        | some addrP =>
            match findFirst addrP
                ⟨"span".toList, [("class".toList, .exact "raw__09f24__T4Ezm".toList)]⟩ with
            | none => row
            | some addrSpan => row.set .address (.s (getTextStrip addrSpan))
  let row := yelpSecondary listing row
  let row :=
    match yelpTags listing with
    | [] => row
    | tags => row.set .amenities (.s (jsonStrList tags))
  let row :=
    match findFirst listing
        ⟨"img".toList, [("class".toList, .exact "y-css-fex5b".toList)]⟩ with
    | none => row
    | some img =>
        let src := img.getAttrD "src".toList []
        if src.isEmpty then row else row.set .images (.s (jsonStrList [src]))
  validityGate row

/-- The `listing_selectors` table of `scrape_businesses_from_search` (YP). -/
def ypListingSelectorsBiz : List Sel :=
  [ ⟨"div".toList, [("class".toList, .iany ["result".toList])]⟩,
    ⟨"div".toList, [("class".toList, .iany ["listing".toList])]⟩,
    ⟨"div".toList, [("class".toList, .iany ["business".toList])]⟩,
    ⟨"article".toList, []⟩,
    ⟨"li".toList, [("class".toList, .iany ["result".toList])]⟩ ]

/-- The `listing_selectors` table of `scrape_search_results` (YP, no `li`). -/
def ypListingSelectorsUrl : List Sel :=
  [ ⟨"div".toList, [("class".toList, .iany ["result".toList])]⟩,
    ⟨"div".toList, [("class".toList, .iany ["listing".toList])]⟩,
    ⟨"div".toList, [("class".toList, .iany ["business".toList])]⟩,
    ⟨"article".toList, []⟩ ]

/-- The `next_page_selectors` table of `scrape_businesses_from_search` (YP). -/
def ypNextSelectorsBiz : List Sel :=
  [ ⟨"a".toList, [("class".toList, .iany ["next".toList])]⟩,
    ⟨"a".toList, [("aria-label".toList, .iany ["next".toList])]⟩,
    ⟨"a".toList, [("title".toList, .iany ["next".toList])]⟩ ]

/-- The `next_page_selectors` table of `scrape_search_results` (YP). -/
def ypNextSelectorsUrl : List Sel :=
  [ ⟨"a".toList, [("class".toList, .iany ["next".toList])]⟩,
    ⟨"a".toList, [("aria-label".toList, .iany ["next".toList])]⟩ ]

/-- The `name_selectors` table inside `scrape_search_results` (YP, 4 rules). -/
def ypUrlNameSelectors : List Sel :=
  [ ⟨"a".toList, [("class".toList, .iany ["business-name".toList])]⟩,
    ⟨"h2".toList, []⟩,
    ⟨"h3".toList, []⟩,
    ⟨"a".toList, [("class".toList, .iany ["listing".toList])]⟩ ]

/-- The listing-container cascade: first selector whose `find_all` is
non-empty wins. -/
def findListingsLoop (soup : Elem) : List Sel → List Elem
  | [] => []
  | sel :: rest =>
      match findAll soup sel with
      | [] => findListingsLoop soup rest
      | ls => ls

/-- The next-page cascade: `if next_link and next_link.get('href')` — a
matched anchor without an `href` does not stop the cascade. -/
def hasNextLoop (soup : Elem) : List Sel → Bool
  | [] => false
  | sel :: rest =>
      match findFirst soup sel with
      | none => hasNextLoop soup rest
      | some el =>
          if (el.getAttrD "href".toList []).isEmpty then hasNextLoop soup rest else true

/-- The external effects behind `ZyteClient`: `rawFetch` models the HTTP
round trip (`.error` = a raised exception, `.ok none` = handled non-success
or missing `browserHtml`, `.ok (some html)` = rendered markup) and
`rawParse` models `BeautifulSoup(html)`. -/
structure ZyteEnv where
  rawFetch : Str → Except Str (Option Str)
  rawParse : Str → Except Str Elem

/-- `ZyteClient.fetch_page`: its own `try/except` converts any raised
exception into `None`; no exception escapes this boundary. -/
def fetch_page (env : ZyteEnv) (url : Str) : Option Str :=
  match env.rawFetch url with
  | .ok r => r
  | .error _ => none

/-- `ZyteClient.parse_html`: same containment for parse failures. -/
def parse_html (env : ZyteEnv) (html : Str) : Option Elem :=
  match env.rawParse html with
  | .ok soup => some soup
  | .error _ => none

/-- Crawl state: accumulated records plus the ghost log of URLs handed to
the fetcher (instrumentation only; it does not influence the computation). -/
structure CrawlSt where
  businesses : List Row
  fetched : List Str

/-- URL-crawl state (`scrape_search_results`): accumulated business URLs
plus the same ghost fetch log. -/
structure UrlCrawlSt where
  urls : List Str
  fetched : List Str

/-- `if max_pages and page > max_pages` (Yellow Pages loops): the cap is
checked only when `max_pages` is truthy, so `0` behaves like `None`. -/
def capReachedGT (mp : Option Nat) (page : Nat) : Bool :=
  match mp with
  | none => false
  | some n => n != 0 && page > n

/-- `if max_pages and page >= max_pages` (Yelp loops). -/
def capReachedGE (mp : Option Nat) (page : Nat) : Bool :=
  match mp with
  | none => false
  | some n => n != 0 && page ≥ n

/-- The loop body of `YellowPagesScraper.scrape_businesses_from_search`,
fuel-indexed (the Python `while True` has no intrinsic bound; exhausted fuel
returns what has been accumulated, which no claim depends on). -/
def ypCrawlBiz (env : ZyteEnv) (hasClient : Bool) (searchUrl : Str) (mp : Option Nat) :
    Nat → Nat → CrawlSt → CrawlSt
  | 0, _, st => st
  | fuel + 1, page, st =>
      let url := if page > 1 then buildPageUrlYP searchUrl page else searchUrl
      if !hasClient then st
      else
        let st1 : CrawlSt := ⟨st.businesses, st.fetched ++ [url]⟩
        match fetch_page env url with
        | none => st1
        | some html =>
            match parse_html env html with
            | none => st1
            | some soup =>
                let listings := findListingsLoop soup ypListingSelectorsBiz
                if listings.isEmpty then st1
                else
                  let pageB := listings.filterMap yp_parse_business_from_listing
                  let st2 : CrawlSt := ⟨st1.businesses ++ pageB, st1.fetched⟩
                  if pageB.isEmpty then st2
                  else if !hasNextLoop soup ypNextSelectorsBiz then st2
                  else if capReachedGT mp (page + 1) then st2
                  else ypCrawlBiz env hasClient searchUrl mp fuel (page + 1) st2

/-- `YellowPagesScraper.scrape_businesses_from_search` from page 1 with
empty accumulators. -/
def yp_scrape_businesses_from_search (env : ZyteEnv) (hasClient : Bool)
    (searchUrl : Str) (mp : Option Nat) (fuel : Nat) : CrawlSt :=
  ypCrawlBiz env hasClient searchUrl mp fuel 1 ⟨[], []⟩

/-- Per-listing URL extraction inside `scrape_search_results` (YP): name
cascade, `href` from the element or its nearest anchor ancestor, and the
`(href and '/biz/' in href) or '.html' in href` filter (Python operator
precedence), then base resolution with the query string stripped. -/
def ypListingUrl (listing : Elem) : Option Str :=
  match findFirstSel listing ypUrlNameSelectors with
  | none => none
  | some ea =>
      let href :=
        if ea.1.tag == "a".toList then ea.1.getAttrD "href".toList []
        else
          match ea.2.find? (fun p => p.tag == "a".toList) with
          | some p => p.getAttrD "href".toList []
          | none => []
      if (!href.isEmpty && containsCS href "/biz/".toList)
          || containsCS href ".html".toList then
        some
          (if href.take 1 == ['/'] then urljoinBase ypBase (beforeQuery href)
           else if ("http".toList).isPrefixOf href then beforeQuery href
           else urljoinBase ypBase (beforeQuery href))
      else none

/-- The per-page URL collection loop: each extracted URL is appended to the
global accumulator and the page list only when not already accumulated
(this membership test is against all pages so far, i.e. cross-page dedup). -/
def collectUrls (extract : Elem → Option Str) :
    List Elem → List Str → List Str → List Str × List Str
  | [], acc, pageUrls => (acc, pageUrls)
  | l :: rest, acc, pageUrls =>
      match extract l with
      | none => collectUrls extract rest acc pageUrls
      | some u =>
          if acc.contains u then collectUrls extract rest acc pageUrls
          else collectUrls extract rest (acc ++ [u]) (pageUrls ++ [u])

/-- The loop body of `YellowPagesScraper.scrape_search_results`. -/
def ypCrawlUrls (env : ZyteEnv) (hasClient : Bool) (searchUrl : Str) (mp : Option Nat) :
    Nat → Nat → UrlCrawlSt → UrlCrawlSt
  | 0, _, st => st
  | fuel + 1, page, st =>
      let url := if page > 1 then buildPageUrlYP searchUrl page else searchUrl
      if !hasClient then st
      else
        let st1 : UrlCrawlSt := ⟨st.urls, st.fetched ++ [url]⟩
        match fetch_page env url with
        | none => st1
        | some html =>
            match parse_html env html with
            | none => st1
            | some soup =>
                let listings := findListingsLoop soup ypListingSelectorsUrl
                if listings.isEmpty then st1
                else
                  let collected := collectUrls ypListingUrl listings st1.urls []
                  let st2 : UrlCrawlSt := ⟨collected.1, st1.fetched⟩
                  if collected.2.isEmpty then st2
                  else if !hasNextLoop soup ypNextSelectorsUrl then st2
                  else if capReachedGT mp (page + 1) then st2
                  else ypCrawlUrls env hasClient searchUrl mp fuel (page + 1) st2

/-- `YellowPagesScraper.scrape_search_results` from page 1. -/
def yp_scrape_search_results (env : ZyteEnv) (hasClient : Bool)
    (searchUrl : Str) (mp : Option Nat) (fuel : Nat) : UrlCrawlSt :=
  ypCrawlUrls env hasClient searchUrl mp fuel 1 ⟨[], []⟩

/-- Selector of the Yelp results container
(`find('main', id='main-content', class_=...)`). -/
def yelpMainSel : Sel :=
  ⟨"main".toList,
    [("id".toList, .exact "main-content".toList),
     ("class".toList, .exact "searchResultsContainer__09f24__jckwW".toList)]⟩

/-- The loop body of `YelpScraper.scrape_businesses_from_search` (0-based
page counter, `start` offset incremented by 10 alongside it). -/
def yelpCrawlBiz (env : ZyteEnv) (hasClient : Bool) (searchUrl : Str) (mp : Option Nat) :
    Nat → Nat → Nat → CrawlSt → CrawlSt
  | 0, _, _, st => st
  | fuel + 1, page, start, st =>
      let url := if page > 0 then buildPageUrlYelp searchUrl start else searchUrl
      if !hasClient then st
      else
        let st1 : CrawlSt := ⟨st.businesses, st.fetched ++ [url]⟩
        match fetch_page env url with
        | none => st1
        | some html =>
            match parse_html env html with
            | none => st1
            | some soup =>
                match findFirst soup yelpMainSel with
                | none => st1
                | some mainC =>
                    let listings := findAll mainC
                      ⟨"li".toList, [("class".toList, .exact "y-css-mhg9c5".toList)]⟩
                    let pageB := listings.filterMap (fun l =>
                      match findFirst l
                          ⟨"h3".toList, [("class".toList, .exact "y-css-hcgwj4".toList)]⟩ with
                      | none => none
                      | some _ => yelp_parse_business_from_listing l)
                    let st2 : CrawlSt := ⟨st1.businesses ++ pageB, st1.fetched⟩
                    match findFirst mainC
                        ⟨"div".toList,
                          [("class".toList, .exact "pagination__09f24__D23mv".toList)]⟩ with
                    | none => st2
                    | some pagination =>
                        if pageB.isEmpty then st2
                        else
                          match findFirst pagination
                              ⟨"a".toList, [("class".toList, .exact "next-link".toList)]⟩ with
                          | none => st2
                          | some _ =>
                              if capReachedGE mp (page + 1) then st2
                              else yelpCrawlBiz env hasClient searchUrl mp fuel
                                (page + 1) (start + 10) st2

/-- `YelpScraper.scrape_businesses_from_search` from page 0, start 0. -/
def yelp_scrape_businesses_from_search (env : ZyteEnv) (hasClient : Bool)
    (searchUrl : Str) (mp : Option Nat) (fuel : Nat) : CrawlSt :=
  yelpCrawlBiz env hasClient searchUrl mp fuel 0 0 ⟨[], []⟩

/-- Per-listing URL extraction inside `scrape_search_results` (Yelp):
`href and '/biz/' in href`. -/
def yelpListingUrl (listing : Elem) : Option Str :=
  match findFirst listing
      ⟨"h3".toList, [("class".toList, .exact "y-css-hcgwj4".toList)]⟩ with
  | none => none
  | some nameLink =>
      match findFirst nameLink
          ⟨"a".toList, [("class".toList, .exact "y-css-12f4fi2".toList)]⟩ with
      | none => none
      | some link =>
          let href := link.getAttrD "href".toList []
          if !href.isEmpty && containsCS href "/biz/".toList then
            some
              (if href.take 1 == ['/'] then urljoinBase yelpBase (beforeQuery href)
               else beforeQuery href)
          else none

/-- The loop body of `YelpScraper.scrape_search_results`. -/
def yelpCrawlUrls (env : ZyteEnv) (hasClient : Bool) (searchUrl : Str) (mp : Option Nat) :
    Nat → Nat → Nat → UrlCrawlSt → UrlCrawlSt
  | 0, _, _, st => st
  | fuel + 1, page, start, st =>
      let url := if page > 0 then buildPageUrlYelp searchUrl start else searchUrl
      if !hasClient then st
      else
        let st1 : UrlCrawlSt := ⟨st.urls, st.fetched ++ [url]⟩
        match fetch_page env url with
        | none => st1
        | some html =>
            match parse_html env html with
            | none => st1
            | some soup =>
                match findFirst soup yelpMainSel with
                | none => st1
                | some mainC =>
                    let listings := findAll mainC
                      ⟨"li".toList, [("class".toList, .exact "y-css-mhg9c5".toList)]⟩
                    let collected := collectUrls yelpListingUrl listings st1.urls []
                    let st2 : UrlCrawlSt := ⟨collected.1, st1.fetched⟩
                    match findFirst mainC
                        ⟨"div".toList,
                          [("class".toList, .exact "pagination__09f24__D23mv".toList)]⟩ with
                    | none => st2
                    | some pagination =>
                        if collected.2.isEmpty then st2
                        else
                          match findFirst pagination
                              ⟨"a".toList, [("class".toList, .exact "next-link".toList)]⟩ with
                          | none => st2
                          | some _ =>
                              if capReachedGE mp (page + 1) then st2
                              else yelpCrawlUrls env hasClient searchUrl mp fuel
                                (page + 1) (start + 10) st2

/-- `YelpScraper.scrape_search_results` from page 0, start 0. -/
def yelp_scrape_search_results (env : ZyteEnv) (hasClient : Bool)
    (searchUrl : Str) (mp : Option Nat) (fuel : Nat) : UrlCrawlSt :=
  yelpCrawlUrls env hasClient searchUrl mp fuel 0 0 ⟨[], []⟩

/-- The complete key list of the `business_data` dict, in dict order
(`business_data.items()` iterates over these). -/
def allFields : List Field :=
  [.name, .source, .sourceUrl, .sourceId, .phone, .email, .website,
   .address, .city, .state, .zipCode, .country, .latitude, .longitude,
   .category, .description, .rating, .reviewCount, .hours, .amenities, .images]

/-- One step of `for key, value in business_data.items(): if value is not
None: setattr(existing, key, value)` (every key is a `Business` attribute,
so the `hasattr` guard always passes). -/
def mergeStep (incoming : Row) (acc : Row) (f : Field) : Row :=
  match incoming f with
  | some v => acc.set f v
  | none => acc

/-- The in-place merge of an incoming record into an existing row. -/
def mergeRow (existing incoming : Row) : Row :=
  allFields.foldl (mergeStep incoming) existing

/-- `BaseScraper.save_business`: look up the first stored row with the
incoming record's `source_url`; merge non-null fields into it if found,
otherwise append the full record (`db.add`). -/
def save_business : List Row → Row → List Row
  | [], bd => [bd]
  | r :: rest, bd =>
      if r Field.sourceUrl = bd Field.sourceUrl then mergeRow r bd :: rest
      else r :: save_business rest bd

/-- `BaseScraper.commit`: `try: db.commit() except: db.rollback(); raise` —
the underlying commit outcome is propagated unmodified on failure. -/
def commit (dbCommit : Except Str Unit) : Except Str Unit :=
  match dbCommit with
  | .ok _ => .ok ()
  | .error e => .error e

/-- The `try:` body of one category iteration of
`scrape_multiple_categories`: crawl, record the result, save every record,
commit.  The only call in the body that can raise is `commit`; on success it
returns the category's businesses and the updated session rows. -/
def smcCategoryStep (crawl : Str → List Row) (db : List Row)
    (dbCommit : Except Str Unit) (title : Str) : Except Str (List Row × List Row) :=
  let businesses := crawl title
  let db1 := businesses.foldl save_business db
  match commit dbCommit with
  | .ok _ => .ok (businesses, db1)
  | .error e => .error e

/-- `scrape_multiple_categories` (identical in both scrapers): each category
body runs under `try/except Exception`, which logs any failure and stores
`[]` for that category; a failed commit also rolls the session back to the
last committed state.  The function itself never re-raises. -/
def scrape_multiple_categories (titles : List Str) (crawl : Str → List Row)
    (db : List Row) (dbCommit : Except Str Unit) :
    List (Str × List Row) × List Row :=
  titles.foldl
    (fun acc t =>
      match smcCategoryStep crawl acc.2 dbCommit t with
      | .ok r => (acc.1 ++ [(t, r.1)], r.2)
      | .error _ => (acc.1 ++ [(t, [])], acc.2))
    ([], db)

/-- Fixture: a Yellow Pages listing fragment with one business-name anchor. -/
def ypListingFix (href nm : Str) : Elem :=
  .node "div".toList [("class".toList, "result".toList)] []
    [.node "a".toList
      [("class".toList, "business-name".toList), ("href".toList, href)] nm []]

/-- Fixture: a Yellow Pages results page with the given listings and an
optional enabled next-page link. -/
def ypPageFix (listings : List Elem) (hasNext : Bool) : Elem :=
  .node "html".toList [] []
    (listings ++
      (if hasNext then
        [.node "a".toList
          [("class".toList, "next".toList), ("href".toList, "/search?page=2".toList)]
          "Next".toList []]
      else []))

/-- Fixture: search URL for the Yellow Pages crawl fixtures. -/
def fixUrl1 : Str := "https://www.yellowpages.com/search?search_terms=Plumbers".toList

/-- Fixture: the three-page Yellow Pages environment of the pagination
claims: pages 1 and 2 expose an enabled next link, page 3 does not. -/
def envYp3 : ZyteEnv where
  rawFetch u :=
    if u == fixUrl1 then .ok (some "P1".toList)
    else if u == buildPageUrlYP fixUrl1 2 then .ok (some "P2".toList)
    else if u == buildPageUrlYP fixUrl1 3 then .ok (some "P3".toList)
    else .ok none
  rawParse h :=
    if h == "P1".toList then
      .ok (ypPageFix
        [ypListingFix "/mip/biz1.html".toList "Biz One".toList,
         ypListingFix "/mip/biz2.html".toList "Biz Two".toList] true)
    else if h == "P2".toList then
      .ok (ypPageFix
        [ypListingFix "/mip/biz3.html".toList "Biz Three".toList,
         ypListingFix "/mip/biz4.html".toList "Biz Four".toList] true)
    else if h == "P3".toList then
      .ok (ypPageFix [ypListingFix "/mip/biz5.html".toList "Biz Five".toList] false)
    else .error "unexpected markup".toList

/-- Fixture: the two-page Yellow Pages environment of the dedup claim: the
listing `/mip/dup.html` appears on page 1 and again on page 2. -/
def envYpDup : ZyteEnv where
  rawFetch u :=
    if u == fixUrl1 then .ok (some "Q1".toList)
    else if u == buildPageUrlYP fixUrl1 2 then .ok (some "Q2".toList)
    else .ok none
  rawParse h :=
    if h == "Q1".toList then
      .ok (ypPageFix [ypListingFix "/mip/dup.html".toList "Dup Biz".toList] true)
    else if h == "Q2".toList then
      .ok (ypPageFix
        [ypListingFix "/mip/dup.html".toList "Dup Biz".toList,
         ypListingFix "/mip/other.html".toList "Other Biz".toList] false)
    else .error "unexpected markup".toList

/-- Fixture: the listing fragment of the selector-fallback claim.  The first
rating rule (`div` with class matching `rating`) matches nothing, the second
(`span` with class matching `rating`) matches an element whose text
normalizes to `None`, and the third (`div` with `itemprop='ratingValue'`)
matches an element normalizing to `4.5`. -/
def fragC2 : Elem :=
  .node "div".toList [("class".toList, "result".toList)] []
    [ .node "a".toList
        [("class".toList, "business-name".toList),
         ("href".toList, "/mip/fixit-plumbing-10.html".toList)]
        "Fixit Plumbing".toList [],
      .node "span".toList [("class".toList, "star-rating".toList)] "No stars yet".toList [],
      .node "div".toList [("itemprop".toList, "ratingValue".toList)] "4.5".toList [] ]

/-- Fixture: a Yelp listing fragment whose category buttons repeat and
exceed five entries and whose amenity tags repeat. -/
def fragC8 : Elem :=
  .node "li".toList [("class".toList, "y-css-mhg9c5".toList)] []
    [ .node "h3".toList [("class".toList, "y-css-hcgwj4".toList)] []
        [.node "a".toList
          [("class".toList, "y-css-12f4fi2".toList),
           ("href".toList, "/biz/some-biz".toList)]
          "Some Biz".toList []],
      .node "div".toList [("data-testid".toList, "serp-ia-categories".toList)] []
        [ .node "button".toList [("class".toList, "y-css-4nc3wq".toList)] "Plumbers".toList [],
          .node "button".toList [("class".toList, "y-css-4nc3wq".toList)] "Plumbers".toList [],
          .node "button".toList [("class".toList, "y-css-4nc3wq".toList)] "Heating".toList [],
          .node "button".toList [("class".toList, "y-css-4nc3wq".toList)] "Heating".toList [],
          .node "button".toList [("class".toList, "y-css-4nc3wq".toList)] "Cooling".toList [],
          .node "button".toList [("class".toList, "y-css-4nc3wq".toList)] "Cooling".toList [] ],
      .node "div".toList
        [("class".toList, "tag__09f24__wuJ8a".toList), ("data-testid".toList, "tag".toList)] []
        [.node "span".toList [("class".toList, "tagText__09f24__OoFU9".toList)] []
          [.node "span".toList [("class".toList, "raw__09f24__T4Ezm".toList)] "Pool".toList []]],
      .node "div".toList
        [("class".toList, "tag__09f24__wuJ8a".toList), ("data-testid".toList, "tag".toList)] []
        [.node "span".toList [("class".toList, "tagText__09f24__OoFU9".toList)] []
          [.node "span".toList [("class".toList, "raw__09f24__T4Ezm".toList)] "Pool".toList []]] ]

/-- Fixture: a Yelp listing with one category button and one name anchor. -/
def yelpListingFix (href nm : Str) : Elem :=
  .node "li".toList [("class".toList, "y-css-mhg9c5".toList)] []
    [.node "h3".toList [("class".toList, "y-css-hcgwj4".toList)] []
      [.node "a".toList
        [("class".toList, "y-css-12f4fi2".toList), ("href".toList, href)] nm []]]

/-- Fixture: a Yelp results page; listings sit inside the `main-content`
container, the next link inside the pagination div when present. -/
def yelpPageFix (listings : List Elem) (hasNext : Bool) : Elem :=
  .node "html".toList [] []
    [.node "main".toList
      [("id".toList, "main-content".toList),
       ("class".toList, "searchResultsContainer__09f24__jckwW".toList)] []
      (listings ++
        (if hasNext then
          [.node "div".toList [("class".toList, "pagination__09f24__D23mv".toList)] []
            [.node "a".toList
              [("class".toList, "next-link".toList), ("href".toList, "?start=10".toList)]
              "Next".toList []]]
        else []))]

/-- Fixture: search URL for the Yelp crawl fixture. -/
def fixYelpUrl : Str := "https://www.yelp.ca/search?find_desc=Plumbers&find_loc=Montreal".toList

/-- Fixture: a two-page Yelp environment (page 2 has no pagination block). -/
def envYelp2 : ZyteEnv where
  rawFetch u :=
    if u == fixYelpUrl then .ok (some "Y1".toList)
    else if u == buildPageUrlYelp fixYelpUrl 10 then .ok (some "Y2".toList)
    else .ok none
  rawParse h :=
    if h == "Y1".toList then
      .ok (yelpPageFix [yelpListingFix "/biz/alpha".toList "Alpha".toList] true)
    else if h == "Y2".toList then
      .ok (yelpPageFix [yelpListingFix "/biz/beta".toList "Beta".toList] false)
    else .error "unexpected markup".toList

/-- Fixture: two-page environment where page 2 has no listing containers
(the listing-container cascade finds nothing). -/
def envYpNoList : ZyteEnv where
  rawFetch u :=
    if u == fixUrl1 then .ok (some "R1".toList)
    else if u == buildPageUrlYP fixUrl1 2 then .ok (some "R2".toList)
    else .ok none
  rawParse h :=
    if h == "R1".toList then
      .ok (ypPageFix
        [ypListingFix "/mip/biz1.html".toList "Biz One".toList,
         ypListingFix "/mip/biz2.html".toList "Biz Two".toList] true)
    else if h == "R2".toList then
      .ok (ypPageFix [] true)
    else .error "unexpected markup".toList

/-- Fixture: two-page environment where page 2 has a listing container but
no extractable name anchor, so zero valid records are extracted from it. -/
def envYpNoValid : ZyteEnv where
  rawFetch u :=
    if u == fixUrl1 then .ok (some "S1".toList)
    else if u == buildPageUrlYP fixUrl1 2 then .ok (some "S2".toList)
    else .ok none
  rawParse h :=
    if h == "S1".toList then
      .ok (ypPageFix
        [ypListingFix "/mip/biz1.html".toList "Biz One".toList,
         ypListingFix "/mip/biz2.html".toList "Biz Two".toList] true)
    else if h == "S2".toList then
      .ok (ypPageFix [.node "div".toList [("class".toList, "result".toList)] [] []] true)
    else .error "unexpected markup".toList

/-- Fixture: stored row for the upsert witness. -/
def storedRowFix : Row := fun f =>
  match f with
  | .name => some (.s "Joes Plumbing".toList)
  | .source => some (.s "yellowpages".toList)
  | .sourceUrl => some (.s "https://www.yellowpages.com/mip/joes-1.html".toList)
  | .phone => some (.s "555-1234".toList)
  | _ => none

/-- Fixture: a later partial re-scrape of the same listing, with no phone. -/
def incomingRowFix : Row := fun f =>
  match f with
  | .name => some (.s "Joes Plumbing and Heating".toList)
  | .source => some (.s "yellowpages".toList)
  | .sourceUrl => some (.s "https://www.yellowpages.com/mip/joes-1.html".toList)
  | .website => some (.s "https://joesplumbing.example".toList)
  | _ => none

/-- Whether a rating selector rule both matches an element of the fragment
and normalizes to a truthy value (used to state the corrected fallback
ordering of the rating cascade). -/
def ratingRuleTruthy (root : Elem) (s : Sel) : Bool :=
  match findFirst root s with
  | none => false
  | some el => ratTruthy (extract_rating_from_text (getTextStrip el))

/-- Whether a review-count selector rule both matches an element of the
fragment and normalizes to a truthy value (same stopping rule as rating). -/
def reviewRuleTruthy (root : Elem) (s : Sel) : Bool :=
  match findFirst root s with
  | none => false
  | some el => natTruthy (extract_review_count (getTextStrip el))

/-- Whether a phone selector rule stops the phone cascade: it matches an
element AND the phone regex finds any run in its text — the break sits
inside `if phone_match:`, independent of the cleaned value's truthiness. -/
def phoneRuleMatched (root : Elem) (s : Sel) : Bool :=
  match findFirst root s with
  | none => false
  | some el => (phoneSearch (getTextStrip el)).isSome

/-- Fixture: a listing whose first phone rule matches an element with text
`Call us now` — the phone regex matches the lone space, which cleans to the
empty string — while a later phone rule holds `555-1234`; a review-count
element is present for the review cascade. -/
def fragPhone : Elem :=
  .node "div".toList [("class".toList, "result".toList)] []
    [ .node "a".toList
        [("class".toList, "business-name".toList),
         ("href".toList, "/mip/phone-biz.html".toList)]
        "Phone Biz".toList [],
      .node "div".toList [("class".toList, "phone-label".toList)] "Call us now".toList [],
      .node "span".toList [("class".toList, "phone-number".toList)] "555-1234".toList [],
      .node "span".toList [("class".toList, "review-count".toList)] "(7 reviews)".toList [] ]

/-- A record satisfying the validity gate: truthy `name` and `source_url`. -/
def GatedRow (r : Row) : Prop :=
  truthy (r Field.name) = true ∧ truthy (r Field.sourceUrl) = true

theorem validityGate_some {row r : Row} (h : validityGate row = some r) :
    r = row ∧ truthy (r Field.name) = true ∧ truthy (r Field.sourceUrl) = true := by
  unfold validityGate at h
  split at h
  · cases h
    rename_i hc
    exact ⟨rfl, (Bool.and_eq_true _ _).mp hc |>.1, (Bool.and_eq_true _ _).mp hc |>.2⟩
  · cases h

theorem truthy_ne_none {o : Option Value} (h : truthy o = true) : o ≠ none := by
  intro hn
  subst hn
  simp [truthy] at h

theorem yp_parse_gate {frag : Elem} {r : Row} (h : yp_parse_business_from_listing frag = some r) :
    truthy (r Field.name) = true ∧ truthy (r Field.sourceUrl) = true := by
  unfold yp_parse_business_from_listing at h
  exact (validityGate_some h).2

theorem yelp_parse_gate {frag : Elem} {r : Row}
    (h : yelp_parse_business_from_listing frag = some r) :
    truthy (r Field.name) = true ∧ truthy (r Field.sourceUrl) = true := by
  unfold yelp_parse_business_from_listing at h
  exact (validityGate_some h).2

theorem Row.set_eval (row : Row) (f : Field) (v : Value) (g : Field) :
    Row.set row f v g = if g = f then some v else row g := rfl

theorem mergeStep_ne {i acc : Row} {g f : Field} (hne : f ≠ g) :
    mergeStep i acc g f = acc f := by
  unfold mergeStep
  cases i g
  · rfl
  · simp [Row.set, hne]

theorem foldl_mergeStep_not_mem {i : Row} :
    ∀ (l : List Field) (e : Row) (f : Field), f ∉ l → (l.foldl (mergeStep i) e) f = e f := by
  intro l
  induction l with
  | nil => intro e f _; rfl
  | cons g gs ih =>
      intro e f hf
      have h1 : f ≠ g := fun hc => hf (hc ▸ List.mem_cons_self g gs)
      have h2 : f ∉ gs := fun hc => hf (List.mem_cons_of_mem _ hc)
      calc ((g :: gs).foldl (mergeStep i) e) f = (gs.foldl (mergeStep i) (mergeStep i e g)) f := rfl
        _ = (mergeStep i e g) f := ih _ f h2
        _ = e f := mergeStep_ne h1

theorem foldl_mergeStep_eval {i : Row} :
    ∀ (l : List Field) (e : Row) (f : Field), f ∈ l → l.Nodup →
      (l.foldl (mergeStep i) e) f = (i f).or (e f) := by
  intro l
  induction l with
  | nil => intro e f hf _; cases hf
  | cons g gs ih =>
      intro e f hf hnd
      by_cases hfg : f = g
      · subst hfg
        have hnot : f ∉ gs := (List.nodup_cons.mp hnd).1
        calc ((f :: gs).foldl (mergeStep i) e) f
            = (gs.foldl (mergeStep i) (mergeStep i e f)) f := rfl
          _ = (mergeStep i e f) f := foldl_mergeStep_not_mem gs _ f hnot
          _ = (i f).or (e f) := by
              unfold mergeStep
              cases i f
              · rfl
              · simp [Row.set]
      · have hmem : f ∈ gs := (List.mem_cons.mp hf).resolve_left hfg
        calc ((g :: gs).foldl (mergeStep i) e) f
            = (gs.foldl (mergeStep i) (mergeStep i e g)) f := rfl
          _ = (i f).or ((mergeStep i e g) f) := ih _ f hmem (List.nodup_cons.mp hnd).2
          _ = (i f).or (e f) := by rw [mergeStep_ne hfg]

theorem mergeRow_eval (e i : Row) (f : Field) : mergeRow e i f = (i f).or (e f) := by
  apply foldl_mergeStep_eval
  · cases f <;> decide
  · decide

theorem save_business_insert :
    ∀ (db : List Row) (bd : Row),
      (∀ r ∈ db, ¬ r Field.sourceUrl = bd Field.sourceUrl) →
      save_business db bd = db ++ [bd] := by
  intro db
  induction db with
  | nil => intro bd _; rfl
  | cons r rest ih =>
      intro bd h
      have hr : ¬ r Field.sourceUrl = bd Field.sourceUrl := h r (List.mem_cons_self _ _)
      unfold save_business
      rw [if_neg hr, ih bd (fun r' hm => h r' (List.mem_cons_of_mem _ hm))]
      rfl

theorem save_business_update :
    ∀ (pre : List Row) (r : Row) (post : List Row) (bd : Row),
      (∀ r' ∈ pre, ¬ r' Field.sourceUrl = bd Field.sourceUrl) →
      r Field.sourceUrl = bd Field.sourceUrl →
      save_business (pre ++ r :: post) bd = pre ++ mergeRow r bd :: post := by
  intro pre
  induction pre with
  | nil =>
      intro r post bd _ hr
      show save_business (r :: post) bd = mergeRow r bd :: post
      unfold save_business
      rw [if_pos hr]
  | cons p ps ih =>
      intro r post bd hpre hr
      have hp : ¬ p Field.sourceUrl = bd Field.sourceUrl := hpre p (List.mem_cons_self _ _)
      show save_business (p :: (ps ++ r :: post)) bd = p :: (ps ++ mergeRow r bd :: post)
      unfold save_business
      rw [if_neg hp, ih r post bd (fun r' hm => hpre r' (List.mem_cons_of_mem _ hm)) hr]

theorem ypCrawlBiz_gated (env : ZyteEnv) (hc : Bool) (u : Str) (mp : Option Nat) :
    ∀ (fuel page : Nat) (st : CrawlSt),
      (∀ r ∈ st.businesses, GatedRow r) →
      ∀ r ∈ (ypCrawlBiz env hc u mp fuel page st).businesses, GatedRow r := by
  intro fuel
  induction fuel with
  | zero => intro page st h; exact h
  | succ f ih =>
      intro page st h
      unfold ypCrawlBiz
      generalize (if page > 1 then buildPageUrlYP u page else u) = url0
      split
      · exact h
      · rename_i hcl
        dsimp only
        cases hfetch : fetch_page env url0 with
        | none => exact h
        | some html =>
            dsimp only
            cases hparse : parse_html env html with
            | none => exact h
            | some soup =>
                dsimp only
                split
                · exact h
                · have h2 : ∀ r ∈ st.businesses ++
                      (findListingsLoop soup ypListingSelectorsBiz).filterMap
                        yp_parse_business_from_listing, GatedRow r := by
                    intro r hr
                    rcases List.mem_append.mp hr with hin | hin
                    · exact h r hin
                    · rcases List.mem_filterMap.mp hin with ⟨l, _, hl⟩
                      exact yp_parse_gate hl
                  split
                  · exact h2
                  · split
                    · exact h2
                    · split
                      · exact h2
                      · exact ih (page + 1) _ h2

theorem yelpCrawlBiz_gated (env : ZyteEnv) (hc : Bool) (u : Str) (mp : Option Nat) :
    ∀ (fuel page start : Nat) (st : CrawlSt),
      (∀ r ∈ st.businesses, GatedRow r) →
      ∀ r ∈ (yelpCrawlBiz env hc u mp fuel page start st).businesses, GatedRow r := by
  intro fuel
  induction fuel with
  | zero => intro page start st h; exact h
  | succ f ih =>
      intro page start st h
      unfold yelpCrawlBiz
      generalize (if page > 0 then buildPageUrlYelp u start else u) = url0
      split
      · exact h
      · rename_i hcl
        dsimp only
        cases hfetch : fetch_page env url0 with
        | none => exact h
        | some html =>
            dsimp only
            cases hparse : parse_html env html with
            | none => exact h
            | some soup =>
                dsimp only
                cases hmain : findFirst soup yelpMainSel with
                | none => exact h
                | some mainC =>
                    dsimp only
                    have h2 : ∀ r ∈ st.businesses ++
                        (findAll mainC
                          ⟨"li".toList,
                            [("class".toList, .exact "y-css-mhg9c5".toList)]⟩).filterMap
                          (fun l =>
                            match findFirst l
                                ⟨"h3".toList,
                                  [("class".toList, .exact "y-css-hcgwj4".toList)]⟩ with
                            | none => none
                            | some _ => yelp_parse_business_from_listing l), GatedRow r := by
                      intro r hr
                      rcases List.mem_append.mp hr with hin | hin
                      · exact h r hin
                      · rcases List.mem_filterMap.mp hin with ⟨l, _, hl⟩
                        rcases hnl : findFirst l
                            ⟨"h3".toList,
                              [("class".toList, .exact "y-css-hcgwj4".toList)]⟩ with _ | nl
                        · rw [hnl] at hl; cases hl
                        · rw [hnl] at hl; exact yelp_parse_gate hl
                    split
                    · exact h2
                    · split
                      · exact h2
                      · split
                        · exact h2
                        · split
                          · exact h2
                          · exact ih (page + 1) (start + 10) _ h2

/-- C4: no record with null `name` or null `source_url` is ever passed to
the persistence layer: both listing parsers return `None` instead of a
record unless `name` and `source_url` are truthy (hence non-null), and every
record accumulated by either `scrape_businesses_from_search` crawl — the
records `scrape_multiple_categories` hands to `save_business` — therefore
has non-null `name` and `source_url`. -/
theorem C4_validity_gate :
    (∀ (frag : Elem) (r : Row), yp_parse_business_from_listing frag = some r →
        r Field.name ≠ none ∧ r Field.sourceUrl ≠ none)
    ∧ (∀ (frag : Elem) (r : Row), yelp_parse_business_from_listing frag = some r →
        r Field.name ≠ none ∧ r Field.sourceUrl ≠ none)
    ∧ (∀ (env : ZyteEnv) (hc : Bool) (u : Str) (mp : Option Nat) (fuel : Nat),
        ∀ r ∈ (yp_scrape_businesses_from_search env hc u mp fuel).businesses,
          r Field.name ≠ none ∧ r Field.sourceUrl ≠ none)
    ∧ (∀ (env : ZyteEnv) (hc : Bool) (u : Str) (mp : Option Nat) (fuel : Nat),
        ∀ r ∈ (yelp_scrape_businesses_from_search env hc u mp fuel).businesses,
          r Field.name ≠ none ∧ r Field.sourceUrl ≠ none) := by
  refine ⟨?_, ?_, ?_, ?_⟩
  · intro frag r h
    rcases yp_parse_gate h with ⟨h1, h2⟩
    exact ⟨truthy_ne_none h1, truthy_ne_none h2⟩
  · intro frag r h
    rcases yelp_parse_gate h with ⟨h1, h2⟩
    exact ⟨truthy_ne_none h1, truthy_ne_none h2⟩
  · intro env hc u mp fuel r hr
    rcases ypCrawlBiz_gated env hc u mp fuel 1 ⟨[], []⟩ (by intro x hx; cases hx) r hr with
      ⟨h1, h2⟩
    exact ⟨truthy_ne_none h1, truthy_ne_none h2⟩
  · intro env hc u mp fuel r hr
    rcases yelpCrawlBiz_gated env hc u mp fuel 0 0 ⟨[], []⟩ (by intro x hx; cases hx) r hr with
      ⟨h1, h2⟩
    exact ⟨truthy_ne_none h1, truthy_ne_none h2⟩

/-- Witness for C4 at a concrete fragment: the parsed record of `fragC2`
exists and has non-null `name` and `source_url`. -/
theorem C4_validity_gate_witness :
    yp_parse_business_from_listing fragC2
      = some ((yp_parse_business_from_listing fragC2).getD ypInitRow)
    ∧ ((yp_parse_business_from_listing fragC2).getD ypInitRow) Field.name ≠ none
    ∧ ((yp_parse_business_from_listing fragC2).getD ypInitRow) Field.sourceUrl ≠ none := by
  have hsome : yp_parse_business_from_listing fragC2
      = some ((yp_parse_business_from_listing fragC2).getD ypInitRow) := rfl
  exact ⟨hsome, (C4_validity_gate.1 fragC2 _ hsome).1, (C4_validity_gate.1 fragC2 _ hsome).2⟩

/-- C3: `save_business` with no stored row matching the incoming record's
`source_url` appends the full record; with a first matching row it replaces
exactly that row by the merge, and the merged row takes the incoming value
precisely on the fields where the incoming record is non-null, keeping the
stored value on every null incoming field. -/
theorem C3_save_business_upsert :
    (∀ (db : List Row) (bd : Row),
        (∀ r ∈ db, ¬ r Field.sourceUrl = bd Field.sourceUrl) →
        save_business db bd = db ++ [bd])
    ∧ (∀ (pre : List Row) (r : Row) (post : List Row) (bd : Row),
        (∀ r' ∈ pre, ¬ r' Field.sourceUrl = bd Field.sourceUrl) →
        r Field.sourceUrl = bd Field.sourceUrl →
        save_business (pre ++ r :: post) bd = pre ++ mergeRow r bd :: post)
    ∧ (∀ (e i : Row) (f : Field), mergeRow e i f = (i f).or (e f)) :=
  ⟨save_business_insert, save_business_update, mergeRow_eval⟩

/-- Witness for C3: upserting a record with null `phone` over a stored row
with phone `555-1234` merges in place and keeps the stored phone while
taking the incoming non-null fields. -/
theorem C3_save_business_upsert_witness :
    save_business [storedRowFix] incomingRowFix = [mergeRow storedRowFix incomingRowFix]
    ∧ mergeRow storedRowFix incomingRowFix Field.phone = some (.s "555-1234".toList)
    ∧ mergeRow storedRowFix incomingRowFix Field.website
        = some (.s "https://joesplumbing.example".toList)
    ∧ mergeRow storedRowFix incomingRowFix Field.name
        = some (.s "Joes Plumbing and Heating".toList) := by
  refine ⟨?_, ?_, ?_, ?_⟩
  · have h := C3_save_business_upsert.2.1 [] storedRowFix [] incomingRowFix
      (by intro x hx; cases hx) rfl
    simpa using h
  · rw [C3_save_business_upsert.2.2 storedRowFix incomingRowFix Field.phone]; rfl
  · rw [C3_save_business_upsert.2.2 storedRowFix incomingRowFix Field.website]; rfl
  · rw [C3_save_business_upsert.2.2 storedRowFix incomingRowFix Field.name]; rfl

/-- C9 counterexample: on the spec's own example input the third part
`QC H3A 1B1` contains no 5-digit ZIP-shaped token, so `zip_code` is null
(not "set to a ZIP-shaped token found in the third part") and `state` is
the entire third part. -/
theorem C9_counterexample :
    parse_address "123 Main St, Montreal, QC H3A 1B1".toList
      = ⟨some "123 Main St".toList, some "Montreal".toList,
          some "QC H3A 1B1".toList, none⟩
    ∧ (parse_address "123 Main St, Montreal, QC H3A 1B1".toList).zip_code = none := by
  exact ⟨by decide, by decide⟩

/-- C9 amended: `_parse_address` splits on commas into up to three used
parts (street, city, state+zip); when the third part contains a 5-digit
(optionally +4) token, `zip_code` is that token and `state` the stripped
prefix before the match; when it does not — as in the Canadian example
input — `zip_code` stays null and `state` is the whole third part; fewer
than three parts leave `state` and `zip_code` null; the function is total. -/
theorem C9_parse_address_amended :
    parse_address "123 Main St, Springfield, IL 62704".toList
      = ⟨some "123 Main St".toList, some "Springfield".toList,
          some "IL".toList, some "62704".toList⟩
    ∧ parse_address "123 Main St, Montreal, QC H3A 1B1".toList
      = ⟨some "123 Main St".toList, some "Montreal".toList,
          some "QC H3A 1B1".toList, none⟩
    ∧ parse_address "123 Main St, Montreal".toList
      = ⟨some "123 Main St".toList, some "Montreal".toList, none, none⟩
    ∧ parse_address [] = ⟨none, none, none, none⟩
    ∧ ∀ s : Str, (splitOnC ',' s).length < 3 →
        (parse_address s).state = none ∧ (parse_address s).zip_code = none := by
  refine ⟨by decide, by decide, by decide, by decide, ?_⟩
  intro s hlen
  unfold parse_address
  by_cases hs : s.isEmpty
  · rw [if_pos hs]
    exact ⟨rfl, rfl⟩
  · rw [if_neg hs]
    have h2 : ((splitOnC ',' s).map stripS)[2]? = none := by
      apply List.getElem?_eq_none
      rw [List.length_map]
      omega
    dsimp only
    rw [h2]
    exact ⟨rfl, rfl⟩

/-- Witness for C9 at a concrete two-part input. -/
theorem C9_parse_address_witness :
    (splitOnC ',' "123 Main St, Montreal".toList).length < 3
    ∧ (parse_address "123 Main St, Montreal".toList).state = none
    ∧ (parse_address "123 Main St, Montreal".toList).zip_code = none :=
  ⟨by decide,
   (C9_parse_address_amended.2.2.2.2 "123 Main St, Montreal".toList (by decide)).1,
   (C9_parse_address_amended.2.2.2.2 "123 Main St, Montreal".toList (by decide)).2⟩

theorem collectUrls_nodup (extract : Elem → Option Str) :
    ∀ (ls : List Elem) (acc pageUrls : List Str), acc.Nodup →
      (collectUrls extract ls acc pageUrls).1.Nodup := by
  intro ls
  induction ls with
  | nil => intro acc pageUrls h; exact h
  | cons l rest ih =>
      intro acc pageUrls h
      unfold collectUrls
      cases hx : extract l with
      | none => exact ih acc pageUrls h
      | some u =>
          dsimp only
          by_cases hmem : acc.contains u
          · rw [if_pos hmem]
            exact ih acc pageUrls h
          · rw [if_neg hmem]
            apply ih
            have hnot : u ∉ acc := by
              intro hin
              exact hmem (List.elem_eq_true_of_mem hin)
            simp [List.nodup_append, h, hnot]

theorem ypCrawlUrls_nodup (env : ZyteEnv) (hc : Bool) (u : Str) (mp : Option Nat) :
    ∀ (fuel page : Nat) (st : UrlCrawlSt), st.urls.Nodup →
      (ypCrawlUrls env hc u mp fuel page st).urls.Nodup := by
  intro fuel
  induction fuel with
  | zero => intro page st h; exact h
  | succ f ih =>
      intro page st h
      unfold ypCrawlUrls
      generalize (if page > 1 then buildPageUrlYP u page else u) = url0
      split
      · exact h
      · dsimp only
        cases hfetch : fetch_page env url0 with
        | none => exact h
        | some html =>
            dsimp only
            cases hparse : parse_html env html with
            | none => exact h
            | some soup =>
                dsimp only
                split
                · exact h
                · have h2 := collectUrls_nodup ypListingUrl
                    (findListingsLoop soup ypListingSelectorsUrl) st.urls [] h
                  split
                  · exact h2
                  · split
                    · exact h2
                    · split
                      · exact h2
                      · exact ih (page + 1) _ h2

theorem yelpCrawlUrls_nodup (env : ZyteEnv) (hc : Bool) (u : Str) (mp : Option Nat) :
    ∀ (fuel page start : Nat) (st : UrlCrawlSt), st.urls.Nodup →
      (yelpCrawlUrls env hc u mp fuel page start st).urls.Nodup := by
  intro fuel
  induction fuel with
  | zero => intro page start st h; exact h
  | succ f ih =>
      intro page start st h
      unfold yelpCrawlUrls
      generalize (if page > 0 then buildPageUrlYelp u start else u) = url0
      split
      · exact h
      · dsimp only
        cases hfetch : fetch_page env url0 with
        | none => exact h
        | some html =>
            dsimp only
            cases hparse : parse_html env html with
            | none => exact h
            | some soup =>
                dsimp only
                cases hmain : findFirst soup yelpMainSel with
                | none => exact h
                | some mainC =>
                    dsimp only
                    have h2 := collectUrls_nodup yelpListingUrl
                      (findAll mainC
                        ⟨"li".toList, [("class".toList, .exact "y-css-mhg9c5".toList)]⟩)
                      st.urls [] h
                    split
                    · exact h2
                    · split
                      · exact h2
                      · split
                        · exact h2
                        · split
                          · exact h2
                          · apply ih (page + 1) (start + 10)
                            exact h2

/-- C1 counterexample: on a two-page fixture where the listing
`/mip/dup.html` appears on both pages, `scrape_businesses_from_search`
accumulates it twice — it is not represented exactly once. -/
theorem C1_counterexample :
    (yp_scrape_businesses_from_search envYpDup true fixUrl1 none 10).businesses.countP
        (fun r => decide (r Field.sourceUrl
          = some (.s "https://www.yellowpages.com/mip/dup.html".toList))) = 2 := by
  decide

/-- C1 amended: `scrape_businesses_from_search` performs no cross-page
dedup — every valid parsed listing is appended, so a source_url occurring on
several pages is represented once per occurrence (on the fixture:
dup, dup, other).  Cross-page dedup exists only in the URL-collecting
`scrape_search_results`, whose accumulated URL list never contains a
duplicate, for both scrapers. -/
theorem C1_no_dedup_in_business_crawl :
    ((yp_scrape_businesses_from_search envYpDup true fixUrl1 none 10).businesses.map
        (fun r => r Field.sourceUrl)
      = [some (.s "https://www.yellowpages.com/mip/dup.html".toList),
         some (.s "https://www.yellowpages.com/mip/dup.html".toList),
         some (.s "https://www.yellowpages.com/mip/other.html".toList)])
    ∧ (∀ (env : ZyteEnv) (hc : Bool) (u : Str) (mp : Option Nat) (fuel : Nat),
        (yp_scrape_search_results env hc u mp fuel).urls.Nodup)
    ∧ (∀ (env : ZyteEnv) (hc : Bool) (u : Str) (mp : Option Nat) (fuel : Nat),
        (yelp_scrape_search_results env hc u mp fuel).urls.Nodup) := by
  refine ⟨by decide, ?_, ?_⟩
  · intro env hc u mp fuel
    exact ypCrawlUrls_nodup env hc u mp fuel 1 ⟨[], []⟩ List.nodup_nil
  · intro env hc u mp fuel
    exact yelpCrawlUrls_nodup env hc u mp fuel 0 0 ⟨[], []⟩ List.nodup_nil

theorem findFirstSel_first (root : Elem) :
    ∀ (pre : List Sel) (sel : Sel) (post : List Sel) (r : Elem × List Elem),
      (∀ s ∈ pre, findWithAnc root s = none) →
      findWithAnc root sel = some r →
      findFirstSel root (pre ++ sel :: post) = some r := by
  intro pre
  induction pre with
  | nil =>
      intro sel post r _ hfind
      show findFirstSel root (sel :: post) = some r
      unfold findFirstSel
      rw [hfind]
  | cons s ss ih =>
      intro sel post r hpre hfind
      have hs : findWithAnc root s = none := hpre s (List.mem_cons_self _ _)
      show findFirstSel root (s :: (ss ++ sel :: post)) = some r
      unfold findFirstSel
      rw [hs]
      exact ih sel post r (fun x hx => hpre x (List.mem_cons_of_mem _ hx)) hfind

theorem ratingLoop_firstTruthy (root : Elem) :
    ∀ (pre : List Sel) (cur : Option DecV) (sel : Sel) (post : List Sel) (el : Elem),
      (∀ s ∈ pre, ratingRuleTruthy root s = false) →
      findFirst root sel = some el →
      ratTruthy (extract_rating_from_text (getTextStrip el)) = true →
      ratingLoop root cur (pre ++ sel :: post)
        = extract_rating_from_text (getTextStrip el) := by
  intro pre
  induction pre with
  | nil =>
      intro cur sel post el _ hfind htr
      show ratingLoop root cur (sel :: post) = _
      unfold ratingLoop
      rw [hfind]
      dsimp only
      rw [if_pos htr]
  | cons s ss ih =>
      intro cur sel post el hpre hfind htr
      have hs : ratingRuleTruthy root s = false := hpre s (List.mem_cons_self _ _)
      show ratingLoop root cur (s :: (ss ++ sel :: post)) = _
      unfold ratingLoop
      cases hfs : findFirst root s with
      | none =>
          exact ih cur sel post el (fun x hx => hpre x (List.mem_cons_of_mem _ hx)) hfind htr
      | some el0 =>
          dsimp only
          have hfalse : ratTruthy (extract_rating_from_text (getTextStrip el0)) = false := by
            unfold ratingRuleTruthy at hs
            rw [hfs] at hs
            exact hs
          rw [if_neg (by simp [hfalse])]
          exact ih _ sel post el (fun x hx => hpre x (List.mem_cons_of_mem _ hx)) hfind htr

theorem reviewLoop_firstTruthy (root : Elem) :
    ∀ (pre : List Sel) (cur : Option Nat) (sel : Sel) (post : List Sel) (el : Elem),
      (∀ s ∈ pre, reviewRuleTruthy root s = false) →
      findFirst root sel = some el →
      natTruthy (extract_review_count (getTextStrip el)) = true →
      reviewLoop root cur (pre ++ sel :: post)
        = extract_review_count (getTextStrip el) := by
  intro pre
  induction pre with
  | nil =>
      intro cur sel post el _ hfind htr
      show reviewLoop root cur (sel :: post) = _
      unfold reviewLoop
      rw [hfind]
      dsimp only
      rw [if_pos htr]
  | cons s ss ih =>
      intro cur sel post el hpre hfind htr
      have hs : reviewRuleTruthy root s = false := hpre s (List.mem_cons_self _ _)
      show reviewLoop root cur (s :: (ss ++ sel :: post)) = _
      unfold reviewLoop
      cases hfs : findFirst root s with
      | none =>
          exact ih cur sel post el (fun x hx => hpre x (List.mem_cons_of_mem _ hx)) hfind htr
      | some el0 =>
          dsimp only
          have hfalse : natTruthy (extract_review_count (getTextStrip el0)) = false := by
            unfold reviewRuleTruthy at hs
            rw [hfs] at hs
            exact hs
          rw [if_neg (by simp [hfalse])]
          exact ih _ sel post el (fun x hx => hpre x (List.mem_cons_of_mem _ hx)) hfind htr

theorem phoneLoop_firstMatch (root : Elem) :
    ∀ (pre : List Sel) (sel : Sel) (post : List Sel) (el : Elem) (run : Str),
      (∀ s ∈ pre, phoneRuleMatched root s = false) →
      findFirst root sel = some el →
      phoneSearch (getTextStrip el) = some run →
      phoneLoop root (pre ++ sel :: post) = some (cleanPhone run) := by
  intro pre
  induction pre with
  | nil =>
      intro sel post el run _ hfind hrun
      show phoneLoop root (sel :: post) = _
      unfold phoneLoop
      rw [hfind]
      dsimp only
      rw [hrun]
  | cons s ss ih =>
      intro sel post el run hpre hfind hrun
      have hs : phoneRuleMatched root s = false := hpre s (List.mem_cons_self _ _)
      show phoneLoop root (s :: (ss ++ sel :: post)) = _
      unfold phoneLoop
      cases hfs : findFirst root s with
      | none =>
          exact ih sel post el run (fun x hx => hpre x (List.mem_cons_of_mem _ hx)) hfind hrun
      | some el0 =>
          dsimp only
          have hisnone : (phoneSearch (getTextStrip el0)).isSome = false := by
            unfold phoneRuleMatched at hs
            rw [hfs] at hs
            exact hs
          cases hps : phoneSearch (getTextStrip el0) with
          | some r => rw [hps] at hisnone; cases hisnone
          | none =>
              exact ih sel post el run (fun x hx => hpre x (List.mem_cons_of_mem _ hx)) hfind hrun

/-- C2 counterexample: in `fragC2` the first rating rule matches nothing,
the second matches an element whose normalized value is null, and the
extracted rating is the third rule's value `4.5` — the first matching rule
does not determine the field when its normalizer yields null. -/
theorem C2_counterexample :
    findFirst fragC2 ⟨"div".toList, [("class".toList, .iany ["rating".toList])]⟩ = none
    ∧ ((findFirst fragC2
          ⟨"span".toList, [("class".toList, .iany ["rating".toList])]⟩).map
        (fun el => extract_rating_from_text (getTextStrip el))) = some none
    ∧ (yp_parse_business_from_listing fragC2).map (fun r => r Field.rating)
        = some (some (.r ⟨45, 1⟩)) :=
  ⟨rfl, by decide, by decide⟩

/-- C2 amended: the stopping rule of the cascade differs per field.  For
the name field the first rule that matches any element wins
unconditionally.  For rating and review_count the break is guarded by the
truthiness of the assigned normalized value, so the first rule that matches
an element AND normalizes to a truthy value wins, and a matched rule
normalizing to null or a falsy value does not stop the cascade.  For phone
the break is guarded by the regex match itself (`if phone_match:`), so the
first rule whose matched element's text contains any run of phone
characters wins and stops the cascade even when the cleaned value is the
empty string — on `fragPhone` the first rule stores `""` while a later
rule holding `555-1234` is matched but never consulted. -/
theorem C2_selector_fallback_amended :
    (∀ (root : Elem) (pre : List Sel) (sel : Sel) (post : List Sel) (r : Elem × List Elem),
        (∀ s ∈ pre, findWithAnc root s = none) →
        findWithAnc root sel = some r →
        findFirstSel root (pre ++ sel :: post) = some r)
    ∧ (∀ (root : Elem) (pre : List Sel) (cur : Option DecV) (sel : Sel) (post : List Sel)
          (el : Elem),
        (∀ s ∈ pre, ratingRuleTruthy root s = false) →
        findFirst root sel = some el →
        ratTruthy (extract_rating_from_text (getTextStrip el)) = true →
        ratingLoop root cur (pre ++ sel :: post)
          = extract_rating_from_text (getTextStrip el))
    ∧ (∀ (root : Elem) (pre : List Sel) (cur : Option Nat) (sel : Sel) (post : List Sel)
          (el : Elem),
        (∀ s ∈ pre, reviewRuleTruthy root s = false) →
        findFirst root sel = some el →
        natTruthy (extract_review_count (getTextStrip el)) = true →
        reviewLoop root cur (pre ++ sel :: post)
          = extract_review_count (getTextStrip el))
    ∧ (∀ (root : Elem) (pre : List Sel) (sel : Sel) (post : List Sel) (el : Elem) (run : Str),
        (∀ s ∈ pre, phoneRuleMatched root s = false) →
        findFirst root sel = some el →
        phoneSearch (getTextStrip el) = some run →
        phoneLoop root (pre ++ sel :: post) = some (cleanPhone run))
    ∧ phoneRuleMatched fragPhone
        ⟨"span".toList, [("class".toList, .iany ["phone".toList])]⟩ = true
    ∧ phoneLoop fragPhone ypPhoneSelectors = some []
    ∧ (yp_parse_business_from_listing fragPhone).map (fun r => r Field.phone)
        = some (some (.s [])) :=
  ⟨findFirstSel_first, ratingLoop_firstTruthy, reviewLoop_firstTruthy, phoneLoop_firstMatch,
   by decide, by decide, by decide⟩

/-- Witness for C2: the rating cascade on `fragC2` (earlier rules not
matched-and-truthy, third rule truthy), the review cascade on `fragPhone`
(first rule immediately truthy), and the phone cascade on `fragPhone`
(first rule matches with a whitespace-only run whose cleaned value is the
empty string, which still stops the cascade). -/
theorem C2_selector_fallback_witness :
    (∀ s ∈ [(⟨"div".toList, [("class".toList, .iany ["rating".toList])]⟩ : Sel),
            ⟨"span".toList, [("class".toList, .iany ["rating".toList])]⟩],
        ratingRuleTruthy fragC2 s = false)
    ∧ ratingLoop fragC2 none ypRatingSelectors
        = extract_rating_from_text
            (getTextStrip (.node "div".toList
              [("itemprop".toList, "ratingValue".toList)] "4.5".toList []))
    ∧ reviewLoop fragPhone none ypReviewSelectors
        = extract_review_count
            (getTextStrip (.node "span".toList
              [("class".toList, "review-count".toList)] "(7 reviews)".toList []))
    ∧ phoneSearch (getTextStrip (.node "div".toList
          [("class".toList, "phone-label".toList)] "Call us now".toList [])) = some [' ']
    ∧ phoneLoop fragPhone ypPhoneSelectors = some (cleanPhone [' ']) := by
  refine ⟨by decide, ?_, ?_, by decide, ?_⟩
  · exact C2_selector_fallback_amended.2.1 fragC2
      [⟨"div".toList, [("class".toList, .iany ["rating".toList])]⟩,
       ⟨"span".toList, [("class".toList, .iany ["rating".toList])]⟩]
      none
      ⟨"div".toList, [("itemprop".toList, .exact "ratingValue".toList)]⟩
      []
      (.node "div".toList [("itemprop".toList, "ratingValue".toList)] "4.5".toList [])
      (by decide) rfl (by decide)
  · exact C2_selector_fallback_amended.2.2.1 fragPhone
      []
      none
      ⟨"span".toList, [("class".toList, .iany ["review".toList])]⟩
      [⟨"div".toList, [("class".toList, .iany ["review".toList])]⟩]
      (.node "span".toList [("class".toList, "review-count".toList)] "(7 reviews)".toList [])
      (by decide) rfl (by decide)
  · exact C2_selector_fallback_amended.2.2.2.1 fragPhone
      []
      ⟨"div".toList, [("class".toList, .iany ["phone".toList])]⟩
      [⟨"span".toList, [("class".toList, .iany ["phone".toList])]⟩,
       ⟨"a".toList, [("href".toList, .iany ["tel:".toList])]⟩,
       ⟨"div".toList, [("itemprop".toList, .exact "telephone".toList)]⟩]
      (.node "div".toList [("class".toList, "phone-label".toList)] "Call us now".toList [])
      [' ']
      (by decide) rfl rfl

theorem ypCrawlBiz_fetch_bound (env : ZyteEnv) (hc : Bool) (u : Str) (N : Nat)
    (hN : N ≠ 0) :
    ∀ (fuel page : Nat) (st : CrawlSt), page ≤ N →
      (ypCrawlBiz env hc u (some N) fuel page st).fetched.length
        ≤ st.fetched.length + (N + 1 - page) := by
  intro fuel
  induction fuel with
  | zero => intro page st _; exact Nat.le_add_right _ _
  | succ f ih =>
      intro page st hpage
      unfold ypCrawlBiz
      generalize (if page > 1 then buildPageUrlYP u page else u) = url0
      split
      · exact Nat.le_add_right _ _
      · dsimp only
        cases hfetch : fetch_page env url0 with
        | none => simp only [List.length_append, List.length_singleton]; omega
        | some html =>
            dsimp only
            cases hparse : parse_html env html with
            | none => simp only [List.length_append, List.length_singleton]; omega
            | some soup =>
                dsimp only
                split
                · simp only [List.length_append, List.length_singleton]; omega
                · split
                  · simp only [List.length_append, List.length_singleton]; omega
                  · split
                    · simp only [List.length_append, List.length_singleton]; omega
                    · split
                      · simp only [List.length_append, List.length_singleton]; omega
                      · rename_i hcap
                        have hle : page + 1 ≤ N := by
                          unfold capReachedGT at hcap
                          simp only [bne_iff_ne, ne_eq, Bool.and_eq_true,
                            decide_eq_true_eq, not_and] at hcap
                          omega
                        refine le_trans (ih (page + 1) _ hle) ?_
                        simp only [List.length_append, List.length_singleton]
                        omega

theorem yelpCrawlBiz_fetch_bound (env : ZyteEnv) (hc : Bool) (u : Str) (N : Nat)
    (_hN : N ≠ 0) :
    ∀ (fuel page start : Nat) (st : CrawlSt), page < N →
      (yelpCrawlBiz env hc u (some N) fuel page start st).fetched.length
        ≤ st.fetched.length + (N - page) := by
  intro fuel
  induction fuel with
  | zero => intro page start st _; exact Nat.le_add_right _ _
  | succ f ih =>
      intro page start st hpage
      unfold yelpCrawlBiz
      generalize (if page > 0 then buildPageUrlYelp u start else u) = url0
      split
      · exact Nat.le_add_right _ _
      · dsimp only
        cases hfetch : fetch_page env url0 with
        | none => simp only [List.length_append, List.length_singleton]; omega
        | some html =>
            dsimp only
            cases hparse : parse_html env html with
            | none => simp only [List.length_append, List.length_singleton]; omega
            | some soup =>
                dsimp only
                cases hmain : findFirst soup yelpMainSel with
                | none => simp only [List.length_append, List.length_singleton]; omega
                | some mainC =>
                    dsimp only
                    split
                    · simp only [List.length_append, List.length_singleton]; omega
                    · split
                      · simp only [List.length_append, List.length_singleton]; omega
                      · split
                        · simp only [List.length_append, List.length_singleton]; omega
                        · split
                          · simp only [List.length_append, List.length_singleton]; omega
                          · rename_i hcap
                            have hle : page + 1 < N := by
                              unfold capReachedGE at hcap
                              simp only [bne_iff_ne, ne_eq, Bool.and_eq_true,
                                decide_eq_true_eq, not_and] at hcap
                              omega
                            refine le_trans (ih (page + 1) (start + 10) _ hle) ?_
                            simp only [List.length_append, List.length_singleton]
                            omega

/-- C5: with a caller-supplied bound `max_pages = N ≥ 1`, each business
crawl hands at most `N` URLs to the fetcher; and on the three-page fixture
an unbounded crawl fetches exactly pages 1-3 (page 3 having no next
control, no 4th fetch is attempted) and accumulates exactly the union of
the three pages' valid listings, while `max_pages = 2` fetches exactly
pages 1-2 and accumulates only their listings; an unbounded crawl whose
second page has no listing containers, or containers but zero valid
records, likewise stops after fetching that page and returns the records
accumulated so far. -/
theorem C5_pagination_termination :
    (∀ (env : ZyteEnv) (hc : Bool) (u : Str) (fuel N : Nat), 1 ≤ N →
        (yp_scrape_businesses_from_search env hc u (some N) fuel).fetched.length ≤ N)
    ∧ (∀ (env : ZyteEnv) (hc : Bool) (u : Str) (fuel N : Nat), 1 ≤ N →
        (yelp_scrape_businesses_from_search env hc u (some N) fuel).fetched.length ≤ N)
    ∧ (yp_scrape_businesses_from_search envYp3 true fixUrl1 none 10).fetched
        = [fixUrl1, buildPageUrlYP fixUrl1 2, buildPageUrlYP fixUrl1 3]
    ∧ (yp_scrape_businesses_from_search envYp3 true fixUrl1 none 10).businesses.map
        (fun r => r Field.sourceUrl)
        = [some (.s "https://www.yellowpages.com/mip/biz1.html".toList),
           some (.s "https://www.yellowpages.com/mip/biz2.html".toList),
           some (.s "https://www.yellowpages.com/mip/biz3.html".toList),
           some (.s "https://www.yellowpages.com/mip/biz4.html".toList),
           some (.s "https://www.yellowpages.com/mip/biz5.html".toList)]
    ∧ (yp_scrape_businesses_from_search envYp3 true fixUrl1 (some 2) 10).fetched
        = [fixUrl1, buildPageUrlYP fixUrl1 2]
    ∧ (yp_scrape_businesses_from_search envYp3 true fixUrl1 (some 2) 10).businesses.map
        (fun r => r Field.sourceUrl)
        = [some (.s "https://www.yellowpages.com/mip/biz1.html".toList),
           some (.s "https://www.yellowpages.com/mip/biz2.html".toList),
           some (.s "https://www.yellowpages.com/mip/biz3.html".toList),
           some (.s "https://www.yellowpages.com/mip/biz4.html".toList)]
    ∧ (yp_scrape_businesses_from_search envYpNoList true fixUrl1 none 10).fetched
        = [fixUrl1, buildPageUrlYP fixUrl1 2]
    ∧ (yp_scrape_businesses_from_search envYpNoList true fixUrl1 none 10).businesses.map
        (fun r => r Field.sourceUrl)
        = [some (.s "https://www.yellowpages.com/mip/biz1.html".toList),
           some (.s "https://www.yellowpages.com/mip/biz2.html".toList)]
    ∧ (yp_scrape_businesses_from_search envYpNoValid true fixUrl1 none 10).fetched
        = [fixUrl1, buildPageUrlYP fixUrl1 2]
    ∧ (yp_scrape_businesses_from_search envYpNoValid true fixUrl1 none 10).businesses.map
        (fun r => r Field.sourceUrl)
        = [some (.s "https://www.yellowpages.com/mip/biz1.html".toList),
           some (.s "https://www.yellowpages.com/mip/biz2.html".toList)] := by
  refine ⟨?_, ?_, by decide, by decide, by decide, by decide, by decide, by decide,
    by decide, by decide⟩
  · intro env hc u fuel N hN
    have h := ypCrawlBiz_fetch_bound env hc u N (by omega) fuel 1 ⟨[], []⟩ hN
    simpa using h
  · intro env hc u fuel N hN
    have h := yelpCrawlBiz_fetch_bound env hc u N (by omega) fuel 0 0 ⟨[], []⟩ (by omega)
    simpa using h

/-- Witness for C5 at the concrete fixture with `N = 2`. -/
theorem C5_pagination_termination_witness :
    1 ≤ 2
    ∧ (yp_scrape_businesses_from_search envYp3 true fixUrl1 (some 2) 10).fetched.length ≤ 2
    ∧ (yelp_scrape_businesses_from_search envYelp2 true fixYelpUrl (some 2) 10).fetched.length
        ≤ 2 :=
  ⟨by decide,
   C5_pagination_termination.1 envYp3 true fixUrl1 10 2 (by decide),
   C5_pagination_termination.2.1 envYelp2 true fixYelpUrl 10 2 (by decide)⟩

theorem smc_commit_error_results (e : Str) (crawl : Str → List Row) :
    ∀ (titles : List Str) (results0 : List (Str × List Row)) (db : List Row),
      (titles.foldl
        (fun acc t =>
          match smcCategoryStep crawl acc.2 (.error e) t with
          | .ok r => (acc.1 ++ [(t, r.1)], r.2)
          | .error _ => (acc.1 ++ [(t, [])], acc.2))
        (results0, db)).1
      = results0 ++ titles.map (fun t => (t, [])) := by
  intro titles
  induction titles with
  | nil => intro results0 db; simp
  | cons t ts ih =>
      intro results0 db
      simp only [List.foldl_cons]
      rw [show smcCategoryStep crawl db (Except.error e) t = Except.error e from rfl]
      dsimp only
      rw [ih (results0 ++ [(t, [])]) db]
      simp

/-- C6 counterexample: a persistence-commit failure raised inside a
category body of `scrape_multiple_categories` is caught by the per-category
handler — the function returns normally with that category mapped to the
empty list instead of re-raising the failure to the caller. -/
theorem C6_counterexample :
    smcCategoryStep (fun _ => [storedRowFix]) [] (.error "disk full".toList)
        "Plumbers".toList
      = .error "disk full".toList
    ∧ scrape_multiple_categories ["Plumbers".toList] (fun _ => [storedRowFix]) []
        (.error "disk full".toList)
      = ([("Plumbers".toList, [])], []) :=
  ⟨rfl, rfl⟩

/-- C6 amended: a fetch or markup-parse exception never escapes a crawl —
the crawl returns the (possibly empty) partial accumulation after the
attempted fetch; `commit` itself re-raises the underlying commit failure
unmodified; but inside `scrape_multiple_categories` that re-raised failure
is swallowed by the per-category handler, which records `[]` for every
category and returns normally. -/
theorem C6_error_containment_amended :
    (∀ (e : Str) (rp : Str → Except Str Elem) (u : Str) (mp : Option Nat) (f : Nat),
        yp_scrape_businesses_from_search ⟨fun _ => .error e, rp⟩ true u mp (f + 1)
          = ⟨[], [u]⟩)
    ∧ (∀ (e : Str) (u : Str) (mp : Option Nat) (f : Nat),
        yp_scrape_businesses_from_search
            ⟨fun _ => .ok (some "page".toList), fun _ => .error e⟩ true u mp (f + 1)
          = ⟨[], [u]⟩)
    ∧ (∀ e : Str, commit (.error e) = .error e)
    ∧ (∀ (titles : List Str) (crawl : Str → List Row) (db : List Row) (e : Str),
        (scrape_multiple_categories titles crawl db (.error e)).1
          = titles.map (fun t => (t, []))) := by
  refine ⟨?_, ?_, ?_, ?_⟩
  · intro e rp u mp f
    rfl
  · intro e u mp f
    rfl
  · intro e
    rfl
  · intro titles crawl db e
    have h := smc_commit_error_results e crawl titles [] db
    simpa [scrape_multiple_categories] using h

/-- C7 counterexample: rebuilding the page-2 URL decodes the
percent-and-plus encoding of `geo_location_terms`; the other parameter's
URL encoding is not preserved. -/
theorem C7_counterexample :
    buildPageUrlYP
        "https://www.yellowpages.com/search?search_terms=Plumbers&geo_location_terms=Montreal%2C+QC".toList
        2
      ≠ "https://www.yellowpages.com/search?search_terms=Plumbers&geo_location_terms=Montreal%2C+QC&page=2".toList
    ∧ buildPageUrlYP
        "https://www.yellowpages.com/search?search_terms=Plumbers&geo_location_terms=Montreal%2C+QC".toList
        2
      = "https://www.yellowpages.com/search?search_terms=Plumbers&geo_location_terms=Montreal, QC&page=2".toList :=
  ⟨by decide, by decide⟩

/-- C7 amended: the rebuilt page URL injects or overwrites only the
pagination parameter (`page` with the literal page number for Yellow Pages;
`start`, advanced by 10 per page index, for Yelp) and keeps every other
parameter's name, first value and position — but values are re-serialized
after `parse_qs` decoding, so percent- and plus-encodings are decoded
rather than preserved. -/
theorem C7_build_page_url_amended :
    buildPageUrlYP
        "https://www.yellowpages.com/search?search_terms=Plumbers&geo_location_terms=Montreal%2C+QC".toList
        2
      = "https://www.yellowpages.com/search?search_terms=Plumbers&geo_location_terms=Montreal, QC&page=2".toList
    ∧ buildPageUrlYP
        "https://www.yellowpages.com/search?page=5&search_terms=Plumbers".toList 3
      = "https://www.yellowpages.com/search?page=3&search_terms=Plumbers".toList
    ∧ buildPageUrlYelp
        "https://www.yelp.ca/search?find_desc=Plumbers&find_loc=Montreal".toList 10
      = "https://www.yelp.ca/search?find_desc=Plumbers&find_loc=Montreal&start=10".toList
    ∧ (yelp_scrape_businesses_from_search envYelp2 true fixYelpUrl none 10).fetched
      = [fixYelpUrl, buildPageUrlYelp fixYelpUrl 10] :=
  ⟨by decide, by decide, by decide, by decide⟩

theorem addCats_nodup :
    ∀ (elems : List Elem) (cats : List Str), cats.Nodup → (addCats cats elems).Nodup := by
  intro elems
  induction elems with
  | nil => intro cats h; exact h
  | cons el rest ih =>
      intro cats h
      show (addCats (if !(getTextStrip el).isEmpty && !cats.contains (getTextStrip el)
          then cats ++ [getTextStrip el] else cats) rest).Nodup
      split
      · rename_i hcond
        apply ih
        have hnot : getTextStrip el ∉ cats := by
          intro hin
          have h2 := (Bool.and_eq_true _ _).mp hcond |>.2
          have h3 : cats.contains (getTextStrip el) = true := List.elem_eq_true_of_mem hin
          simp only [h3, Bool.not_true] at h2
          cases h2
        simp [List.nodup_append, h, hnot]
      · exact ih cats h

theorem ypCategories_nodup (root : Elem) : (ypCategories root).Nodup := by
  unfold ypCategories
  have hgen : ∀ (sels : List Sel) (acc : List Str), acc.Nodup →
      (sels.foldl (fun acc sel => addCats acc (findAll root sel)) acc).Nodup := by
    intro sels
    induction sels with
    | nil => intro acc h; exact h
    | cons s ss ih =>
        intro acc h
        simp only [List.foldl_cons]
        exact ih _ (addCats_nodup (findAll root s) acc h)
  exact hgen ypCategorySelectors [] List.nodup_nil

/-- C8 counterexample: the Yelp listing parser collects category button
texts and amenity tags verbatim — six category entries with repeats are
comma-joined unchanged and duplicate tags are serialized unchanged, so the
lists are neither de-duplicated nor capped at 5 in this variant. -/
theorem C8_counterexample :
    yelpCategoryList fragC8
      = some ["Plumbers".toList, "Plumbers".toList, "Heating".toList,
              "Heating".toList, "Cooling".toList, "Cooling".toList]
    ∧ (yelp_parse_business_from_listing fragC8).map (fun r => r Field.category)
      = some (some (.s "Plumbers, Plumbers, Heating, Heating, Cooling, Cooling".toList))
    ∧ (yelp_parse_business_from_listing fragC8).map (fun r => r Field.amenities)
      = some (some (.s "[\"Pool\", \"Pool\"]".toList)) :=
  ⟨by decide, by decide, by decide⟩

/-- C8 amended: only the Yellow Pages listing parser de-duplicates its
category list (preserving first-seen order) and caps it at 5 before
comma-joining; the Yelp listing parser joins all category button texts and
serializes all amenity tags without dedup or cap. -/
theorem C8_category_amenity_amended :
    (∀ root : Elem, (ypCategories root).Nodup)
    ∧ (∀ root : Elem, ((ypCategories root).take 5).Nodup)
    ∧ (∀ root : Elem, ((ypCategories root).take 5).length ≤ 5)
    ∧ yelpCategoryList fragC8
      = some ["Plumbers".toList, "Plumbers".toList, "Heating".toList,
              "Heating".toList, "Cooling".toList, "Cooling".toList]
    ∧ yelpTags fragC8 = ["Pool".toList, "Pool".toList] := by
  refine ⟨ypCategories_nodup, ?_, ?_, by decide, by decide⟩
  · intro root
    exact (ypCategories_nodup root).sublist (List.take_sublist 5 _)
  · intro root
    exact List.length_take_le 5 _

theorem ypCrawlBiz_zero_cap (env : ZyteEnv) (hc : Bool) (u : Str) :
    ∀ (fuel page : Nat) (st : CrawlSt),
      ypCrawlBiz env hc u (some 0) fuel page st = ypCrawlBiz env hc u none fuel page st := by
  intro fuel
  induction fuel with
  | zero => intro page st; rfl
  | succ f ih =>
      intro page st
      unfold ypCrawlBiz
      simp only [ih]
      rfl

theorem ypCrawlUrls_zero_cap (env : ZyteEnv) (hc : Bool) (u : Str) :
    ∀ (fuel page : Nat) (st : UrlCrawlSt),
      ypCrawlUrls env hc u (some 0) fuel page st = ypCrawlUrls env hc u none fuel page st := by
  intro fuel
  induction fuel with
  | zero => intro page st; rfl
  | succ f ih =>
      intro page st
      unfold ypCrawlUrls
      simp only [ih]
      rfl

theorem yelpCrawlBiz_zero_cap (env : ZyteEnv) (hc : Bool) (u : Str) :
    ∀ (fuel page start : Nat) (st : CrawlSt),
      yelpCrawlBiz env hc u (some 0) fuel page start st
        = yelpCrawlBiz env hc u none fuel page start st := by
  intro fuel
  induction fuel with
  | zero => intro page start st; rfl
  | succ f ih =>
      intro page start st
      unfold yelpCrawlBiz
      simp only [ih]
      rfl

theorem yelpCrawlUrls_zero_cap (env : ZyteEnv) (hc : Bool) (u : Str) :
    ∀ (fuel page start : Nat) (st : UrlCrawlSt),
      yelpCrawlUrls env hc u (some 0) fuel page start st
        = yelpCrawlUrls env hc u none fuel page start st := by
  intro fuel
  induction fuel with
  | zero => intro page start st; rfl
  | succ f ih =>
      intro page start st
      unfold yelpCrawlUrls
      simp only [ih]
      rfl

/-- C10: `max_pages = 0` is falsy in the guard `if max_pages and page >
max_pages` (resp. `>=`), so a zero bound is never enforced: every crawl
entry point behaves exactly as with `max_pages = None` (unlimited pages),
not as "fetch zero pages". -/
theorem C10_zero_max_pages_unlimited :
    (∀ (env : ZyteEnv) (hc : Bool) (u : Str) (fuel : Nat),
        yp_scrape_businesses_from_search env hc u (some 0) fuel
          = yp_scrape_businesses_from_search env hc u none fuel)
    ∧ (∀ (env : ZyteEnv) (hc : Bool) (u : Str) (fuel : Nat),
        yp_scrape_search_results env hc u (some 0) fuel
          = yp_scrape_search_results env hc u none fuel)
    ∧ (∀ (env : ZyteEnv) (hc : Bool) (u : Str) (fuel : Nat),
        yelp_scrape_businesses_from_search env hc u (some 0) fuel
          = yelp_scrape_businesses_from_search env hc u none fuel)
    ∧ (∀ (env : ZyteEnv) (hc : Bool) (u : Str) (fuel : Nat),
        yelp_scrape_search_results env hc u (some 0) fuel
          = yelp_scrape_search_results env hc u none fuel) :=
  ⟨fun env hc u fuel => ypCrawlBiz_zero_cap env hc u fuel 1 ⟨[], []⟩,
   fun env hc u fuel => ypCrawlUrls_zero_cap env hc u fuel 1 ⟨[], []⟩,
   fun env hc u fuel => yelpCrawlBiz_zero_cap env hc u fuel 0 0 ⟨[], []⟩,
   fun env hc u fuel => yelpCrawlUrls_zero_cap env hc u fuel 0 0 ⟨[], []⟩⟩

end Miga
